import Mathlib

/-!
Verification development for the multi-agent A2A repository.

This file shallowly embeds the task data model and the operations of the
A2A agent endpoint (`src/src/agents/base-agent.ts` and its revised copy in
`src/unnamed/part_003`), the coordinator (`src/unnamed/part_001`) and the
registry (`src/src/server/registry.ts`), and proves or refutes the frozen
claims about them.

Modelling conventions:
* Timestamps (`Date.now()`, ISO strings) are abstract `Nat` ticks.
* Randomly generated identifiers (`task_...`, `ctx_...`, `msg_...`) are
  explicit `String` parameters of the operations that generate them.
* The JS `Map` of tasks is an association list updated in place
  (`Map.set` replaces the binding when the key is present, else appends),
  which preserves insertion order exactly like the JS `Map`.
* The external intelligence provider (`this.agent.sendMessage`) is an
  oracle `String → Except String String`: `.ok` is a response text,
  `.error` is a thrown provider exception.
* An ECMAScript `async` function body runs synchronously up to its first
  `await`.  `createTask` invokes `this.processTask(taskId).catch(...)`
  without awaiting it, so the statements of `processTask` up to the first
  `await` (setting the status to `working`, or to `failed` when the task
  carries no message) execute before `createTask` returns.  The embedding
  therefore splits `processTask` into a synchronous start
  (`processTaskStart`) and a resumption applied to the provider outcome
  (`processTaskResume`).
* JS floating point enters only through `matches / required.length` in
  `calculateCapabilityMatch`.  The quotient of two small naturals is
  modelled as `ℚ` together with an explicit NaN constructor for the
  unguarded `0 / 0`; for the list lengths involved, float64 division is
  order-isomorphic to the rational quotient, and `NaN > x` is false.
-/

namespace A2A

/-- Task states from `src/src/a2a/types.ts` (`A2ATaskStatus.state`). -/
inductive TaskState where
  | submitted
  | working
  | inputRequired
  | completed
  | failed
  | cancelled
  | rejected
  deriving DecidableEq, Repr

/-- `A2ATaskStatus` from `src/src/a2a/types.ts`. -/
structure TaskStatus where
  state : TaskState
  message : Option String
  deriving DecidableEq, Repr

/-- Part kinds of `A2APart.kind` from `src/src/a2a/types.ts`. -/
inductive PartKind where
  | text
  | file
  | data
  | artifact
  deriving DecidableEq, Repr

/-- `A2APart`, restricted to the fields the embedded operations read:
the tag and the text payload. -/
structure Part where
  kind : PartKind
  text : Option String
  deriving DecidableEq, Repr

/-- `A2AMessage` from `src/src/a2a/types.ts`.  The role is kept as the
raw string used by the source. -/
structure Message where
  role : String
  messageId : Option String
  parts : List Part
  timestamp : Option Nat
  deriving DecidableEq, Repr

/-- Metadata maps are association lists; the JS object spread
`{...a, ...b}` keeps the keys of `a` not overridden by `b` and then all
keys of `b`. -/
abbrev Metadata := List (String × String)

/-- `{...old, ...upd}` (`base-agent.ts` line 225). -/
def mergeMetadata (old upd : Metadata) : Metadata :=
  (List.filter (fun kv => !(List.any upd (fun kv2 => kv2.1 == kv.1))) old) ++ upd

/-- `A2ATask` from `src/src/a2a/types.ts`. -/
structure Task where
  id : String
  contextId : String
  status : TaskStatus
  messages : List Message
  createdAt : Nat
  updatedAt : Option Nat
  completedAt : Option Nat
  error : Option String
  metadata : Metadata
  deriving DecidableEq, Repr

/-- The per-agent task store (`protected tasks: Map<string, A2ATask>`). -/
abbrev TaskStore := List (String × Task)

/-- `this.tasks.get(id)`. -/
def TaskStore.get : TaskStore → String → Option Task
  | [], _ => none
  | (k, t) :: rest, id => if k = id then some t else TaskStore.get rest id

/-- `this.tasks.set(id, t)`: replaces the binding in place when present,
appends otherwise (JS `Map` insertion-order semantics). -/
def TaskStore.set : TaskStore → String → Task → TaskStore
  | [], id, t => [(id, t)]
  | (k, t0) :: rest, id, t =>
      if k = id then (k, t) :: rest else (k, t0) :: TaskStore.set rest id t

theorem TaskStore.get_set_self (s : TaskStore) (id : String) (t : Task) :
    TaskStore.get (TaskStore.set s id t) id = some t := by
  induction s with
  | nil => simp [TaskStore.set, TaskStore.get]
  | cons kv rest ih =>
      by_cases h : kv.1 = id
      · simp [TaskStore.set, TaskStore.get, h]
      · simp [TaskStore.set, TaskStore.get, h, ih]

theorem TaskStore.get_set_ne (s : TaskStore) (id id2 : String) (t : Task)
    (h : id2 ≠ id) :
    TaskStore.get (TaskStore.set s id t) id2 = TaskStore.get s id2 := by
  induction s with
  | nil =>
      simp only [TaskStore.set, TaskStore.get]
      rw [if_neg (Ne.symm h)]
  | cons kv rest ih =>
      obtain ⟨k0, t0⟩ := kv
      by_cases hk : k0 = id
      · subst hk
        simp only [TaskStore.set, TaskStore.get, if_pos rfl]
        rw [if_neg (Ne.symm h), if_neg (Ne.symm h)]
      · simp only [TaskStore.set, TaskStore.get, if_neg hk]
        by_cases hk2 : k0 = id2
        · rw [if_pos hk2, if_pos hk2]
        · rw [if_neg hk2, if_neg hk2, ih]

/-- `extractTextFromMessage` (`base-agent.ts` lines 296-301): filter the
text parts, map `part.text || ''`, join with a newline. -/
def extractTextFromMessage (m : Message) : String :=
  String.intercalate "\n"
    ((m.parts.filter (fun p => p.kind = PartKind.text)).map
      (fun p => p.text.getD ""))

/-- `if (!message.messageId) message.messageId = msg_...` (`base-agent.ts`
lines 180-183). -/
def ensureMessageId (m : Message) (freshMsgId : String) : Message :=
  match m.messageId with
  | none => { m with messageId := some freshMsgId }
  | some _ => m

/-- Parameters of `message/send` / `createTask` (`request.params`). -/
structure SendParams where
  contextId : Option String
  message : Option Message
  metadata : Metadata
  deriving DecidableEq, Repr

/-!
## Agent endpoint operations

`processTask` (`base-agent.ts` lines 237-291, `part_003` lines 215-269):
the synchronous start runs when `createTask` invokes
`this.processTask(taskId)` and covers every statement up to the first
`await` (the provider call); the resumption applies the provider outcome.
-/

/-- Synchronous start of `processTask` applied to the stored task: sets
the status to `working`, then reads the last message.  When the task has
no message the `throw new Error('No message provided')` is caught by the
surrounding `try`/`catch`, so the task ends `failed` before any provider
call; otherwise the task is left `working` and the extracted prompt text
is returned for the pending provider call. -/
def processTaskStart (t : Task) : Task × Option String :=
  let t1 := { t with status := { state := TaskState.working,
                                 message := some "Processing task" } }
  match t1.messages.getLast? with
  | none =>
      ({ t1 with status := { state := TaskState.failed,
                             message := some "No message provided" },
                 error := some "No message provided" }, none)
  | some m => (t1, some (extractTextFromMessage m))

/-- The agent-authored response message built from the provider response
(`part_003` lines 240-250; `base-agent.ts` uses the role string
`assistant` instead of `agent`). -/
def responseMessage (content : String) (freshMsgId : String) (now : Nat) :
    Message :=
  { role := "agent"
    messageId := some freshMsgId
    parts := [{ kind := PartKind.text, text := some content }]
    timestamp := some now }

/-- Resumption of `processTask` after the provider call settles:
`.ok` appends the response message and marks the task `completed`;
`.error` (a thrown provider exception) is caught and marks the task
`failed`, recording the error text. -/
def processTaskResume (t : Task) (outcome : Except String String)
    (freshMsgId : String) (now : Nat) : Task :=
  match outcome with
  | Except.ok content =>
      { t with messages := t.messages ++ [responseMessage content freshMsgId now]
               status := { state := TaskState.completed,
                           message := some "Task completed successfully" }
               completedAt := some now }
  | Except.error e =>
      { t with status := { state := TaskState.failed, message := some e }
               error := some e }

/-- Result of `createTask` (`base-agent.ts` lines 162-200): the updated
store and the task object the call returns.  The returned object is the
same (mutated) object that the store holds. -/
structure CreateResult where
  store : TaskStore
  returned : Task
  /-- Prompt of the provider call left pending by the scheduled
  `processTask`, `none` when the synchronous start already failed. -/
  pendingPrompt : Option String
  deriving Repr

/-- `createTask` (`base-agent.ts` lines 162-200): builds the task in
state `submitted`, appends the supplied message (assigning a message id
when absent), stores it, and schedules `processTask` — whose synchronous
start runs before `createTask` returns and mutates the shared task
object.  `freshTaskId`/`freshCtxId`/`freshMsgId` stand for the generated
`task_`/`ctx_`/`msg_` identifiers. -/
def createTask (store : TaskStore) (params : SendParams)
    (freshTaskId freshCtxId freshMsgId : String) (now : Nat) : CreateResult :=
  let contextId := params.contextId.getD freshCtxId
  let msgs : List Message :=
    match params.message with
    | none => []
    | some m => [ensureMessageId m freshMsgId]
  let task : Task :=
    { id := freshTaskId
      contextId := contextId
      status := { state := TaskState.submitted,
                  message := some "Task created and queued for processing" }
      messages := msgs
      createdAt := now
      updatedAt := none
      completedAt := none
      error := none
      metadata := params.metadata }
  let store1 := TaskStore.set store freshTaskId task
  -- `this.processTask(taskId)` runs synchronously up to the provider await
  let (task2, prompt) := processTaskStart task
  let store2 := TaskStore.set store1 freshTaskId task2
  { store := store2, returned := task2, pendingPrompt := prompt }

/-- The wire string of each task state (`A2ATaskStatus.state` literals). -/
def stateName : TaskState → String
  | TaskState.submitted => "submitted"
  | TaskState.working => "working"
  | TaskState.inputRequired => "input-required"
  | TaskState.completed => "completed"
  | TaskState.failed => "failed"
  | TaskState.cancelled => "cancelled"
  | TaskState.rejected => "rejected"

/-- Parameters of `tasks/update` (`request.params.updates`). -/
structure TaskUpdates where
  message : Option Message
  status : Option TaskStatus
  metadata : Option Metadata
  deriving DecidableEq, Repr

/-- `updateTask` (`base-agent.ts` lines 205-231): appends the supplied
message, overwrites the status with any supplied status object, merges
metadata, stamps `updatedAt`.  A missing task throws, surfaced as
`Except.error`. -/
def updateTask (store : TaskStore) (taskId : String) (updates : TaskUpdates)
    (freshMsgId : String) (now : Nat) :
    Except String (TaskStore × Task) :=
  match TaskStore.get store taskId with
  | none => Except.error ("Task " ++ taskId ++ " not found")
  | some t =>
      let t1 := match updates.message with
        | some m => { t with messages := t.messages ++ [ensureMessageId m freshMsgId] }
        | none => t
      let t2 := match updates.status with
        | some s => { t1 with status := s }
        | none => t1
      let t3 := match updates.metadata with
        | some md => { t2 with metadata := mergeMetadata t2.metadata md }
        | none => t2
      let t4 := { t3 with updatedAt := some now }
      Except.ok (TaskStore.set store taskId t4, t4)

/-- `cancelTask` (`part_003` lines 188-209): throws when the task is
missing or when its state is `completed` or `failed`; otherwise sets the
status to `cancelled` and stamps `updatedAt`. -/
def cancelTask (store : TaskStore) (taskId : String) (now : Nat) :
    Except String (TaskStore × Task) :=
  match TaskStore.get store taskId with
  | none => Except.error ("Task " ++ taskId ++ " not found")
  | some t =>
      if t.status.state = TaskState.completed ∨
         t.status.state = TaskState.failed then
        Except.error ("Cannot cancel task in state: " ++ stateName t.status.state)
      else
        let t1 := { t with status := { state := TaskState.cancelled,
                                       message := some "Task cancelled by client request" }
                           updatedAt := some now }
        Except.ok (TaskStore.set store taskId t1, t1)

/-- Full `processTask` run on a stored task: the synchronous start
followed, when a provider call was issued, by the resumption on the
provider outcome.  A missing task id throws (`Task ... not found`). -/
def processTaskFull (store : TaskStore) (taskId : String)
    (provider : String → Except String String)
    (freshMsgId : String) (now : Nat) : Except String TaskStore :=
  match TaskStore.get store taskId with
  | none => Except.error ("Task " ++ taskId ++ " not found")
  | some t =>
      let (t1, prompt) := processTaskStart t
      match prompt with
      | none => Except.ok (TaskStore.set store taskId t1)
      | some p =>
          Except.ok (TaskStore.set store taskId
            (processTaskResume t1 (provider p) freshMsgId now))

/-!
## JSON-RPC dispatch (`handleRPCRequest`, `base-agent.ts` lines 121-157)
-/

/-- The error-code enum `A2AErrorCodes` from `src/src/a2a/types.ts`
lines 167-180 (the repository's documented closed error set). -/
def A2AErrorCodes.INVALID_REQUEST : Int := -32600
def A2AErrorCodes.METHOD_NOT_FOUND : Int := -32601
def A2AErrorCodes.INVALID_PARAMS : Int := -32602
def A2AErrorCodes.INTERNAL_ERROR : Int := -32603
def A2AErrorCodes.TASK_NOT_FOUND : Int := -32001
def A2AErrorCodes.AGENT_NOT_AVAILABLE : Int := -32002
def A2AErrorCodes.AUTHENTICATION_REQUIRED : Int := -32003
def A2AErrorCodes.RATE_LIMIT_EXCEEDED : Int := -32004
def A2AErrorCodes.TASK_TIMEOUT : Int := -32005
def A2AErrorCodes.CAPABILITY_NOT_SUPPORTED : Int := -32006

/-- The requests `handleRPCRequest` dispatches on (`request.method` with
`request.params`).  Fresh identifiers generated inside a branch are
carried by the request constructor. -/
inductive RPCRequest where
  | messageSend (params : SendParams)
      (freshTaskId freshCtxId freshMsgId : String) (now : Nat)
  | tasksGet (id : String)
  | tasksUpdate (id : String) (updates : TaskUpdates)
      (freshMsgId : String) (now : Nat)
  | agentCapabilities
  | agentPing (now : Nat)
  | unknownMethod (name : String)
  deriving Repr

/-- Payload of a JSON-RPC success response from the dispatcher. -/
inductive RPCPayload where
  | task (t : Task)
  | card
  | ping (now : Nat)
  deriving Repr

/-- Outcome of `handleRPCRequest`: `jsonrpc.success` or `jsonrpc.error`
with a numeric code and message.  The dispatcher never throws: thrown
errors are caught and wrapped as code `-32603`. -/
inductive RPCOutcome where
  | success (payload : RPCPayload)
  | rpcError (code : Int) (message : String)
  deriving Repr

/-- `handleRPCRequest` (`base-agent.ts` lines 121-157).  Returns the
response and the store after the call.  `tasks/get` on a missing id
returns `jsonrpc.error(id, new JsonRpcError('Task not found', 404))` —
the literal numeric code `404`.  Errors thrown by `createTask`/
`updateTask` are caught and wrapped with code `-32603`. -/
def handleRPCRequest (store : TaskStore) (req : RPCRequest) :
    RPCOutcome × TaskStore :=
  match req with
  | RPCRequest.messageSend params tid cid mid now =>
      let r := createTask store params tid cid mid now
      (RPCOutcome.success (RPCPayload.task r.returned), r.store)
  | RPCRequest.tasksGet id =>
      match TaskStore.get store id with
      | some t => (RPCOutcome.success (RPCPayload.task t), store)
      | none => (RPCOutcome.rpcError 404 "Task not found", store)
  | RPCRequest.tasksUpdate id updates mid now =>
      match updateTask store id updates mid now with
      | Except.ok (store1, t) => (RPCOutcome.success (RPCPayload.task t), store1)
      | Except.error e => (RPCOutcome.rpcError (-32603) e, store)
  | RPCRequest.agentCapabilities =>
      (RPCOutcome.success RPCPayload.card, store)
  | RPCRequest.agentPing now =>
      (RPCOutcome.success (RPCPayload.ping now), store)
  | RPCRequest.unknownMethod _ =>
      (RPCOutcome.rpcError (-32601) "Method not found", store)

/-!
## Registry (`src/src/server/registry.ts`)
-/

/-- `AgentRegistryEntry` restricted to the fields the embedded endpoints
read. -/
structure RegistryEntry where
  name : String
  capabilities : List String
  status : String
  deriving DecidableEq, Repr

/-- The registry map `agents: Map<string, AgentRegistryEntry>`. -/
abbrev RegistryMap := List (String × RegistryEntry)

def RegistryMap.get : RegistryMap → String → Option RegistryEntry
  | [], _ => none
  | (k, e) :: rest, n => if k = n then some e else RegistryMap.get rest n

/-- `this.agents.has(name)`. -/
def RegistryMap.hasName (m : RegistryMap) (n : String) : Bool :=
  (RegistryMap.get m n).isSome

/-- `this.agents.delete(name)`. -/
def RegistryMap.del : RegistryMap → String → RegistryMap
  | [], _ => []
  | (k, e) :: rest, n =>
      if k = n then rest else (k, e) :: RegistryMap.del rest n

/-- Response of `DELETE /agents/:name`. -/
inductive UnregisterResponse where
  | ok (message : String)
  | httpError (statusCode : Nat) (message : String)
  deriving DecidableEq, Repr

/-- The unregister endpoint (`registry.ts` lines 78-87): when the name is
registered it deletes the entry and answers success; otherwise it answers
HTTP 404 `Agent not found` and leaves the map untouched. -/
def unregisterAgent (m : RegistryMap) (name : String) :
    RegistryMap × UnregisterResponse :=
  if RegistryMap.hasName m name then
    (RegistryMap.del m name,
     UnregisterResponse.ok ("Agent " ++ name ++ " unregistered"))
  else
    (m, UnregisterResponse.httpError 404 "Agent not found")

/-!
## Agent-state operation machine

Sequences of the externally drivable operations on one agent's task
store, used to settle the state-machine claims.  `pending` records the
task ids whose scheduled `processTask` is suspended at the provider
`await`; a `opResume` op delivers the provider outcome for such a task.
-/

structure AgentState where
  store : TaskStore
  pending : List String
  deriving Repr

inductive AgentOp where
  | opCreate (params : SendParams) (tid cid mid : String) (now : Nat)
  | opUpdate (taskId : String) (updates : TaskUpdates) (mid : String) (now : Nat)
  | opCancel (taskId : String) (now : Nat)
  | opResume (taskId : String) (outcome : Except String String) (mid : String) (now : Nat)
  deriving Repr

/-- Effect of one operation.  Operations whose source throws
(`updateTask`/`cancelTask` on bad input) leave the store unchanged: the
throw is caught by `handleRPCRequest` and turned into an error response.
A resume only fires for a task with an in-flight provider call and
consumes that call (`createTask` schedules exactly one `processTask`
continuation per generated task id, so a task id identifies at most one
in-flight call; removal is by filtering the id out). -/
def applyOp (s : AgentState) (op : AgentOp) : AgentState :=
  match op with
  | AgentOp.opCreate p tid cid mid now =>
      let r := createTask s.store p tid cid mid now
      { store := r.store
        pending := match r.pendingPrompt with
          | some _ => tid :: s.pending
          | none => s.pending }
  | AgentOp.opUpdate id upd mid now =>
      match updateTask s.store id upd mid now with
      | Except.ok (st, _) => { s with store := st }
      | Except.error _ => s
  | AgentOp.opCancel id now =>
      match cancelTask s.store id now with
      | Except.ok (st, _) => { s with store := st }
      | Except.error _ => s
  | AgentOp.opResume id outcome mid now =>
      if s.pending.contains id then
        match TaskStore.get s.store id with
        | some t =>
            { store := TaskStore.set s.store id (processTaskResume t outcome mid now)
              pending := s.pending.filter (fun x => !(x == id)) }
        | none => { s with pending := s.pending.filter (fun x => !(x == id)) }
      else s

def applyOps (s : AgentState) (ops : List AgentOp) : AgentState :=
  ops.foldl applyOp s

/-- Ops that, with respect to the task `id`, carry no status overwrite
and do not re-create the same id. -/
def opSafeB (id : String) : AgentOp → Bool
  | AgentOp.opUpdate tid upd _ _ => !(tid == id) || upd.status.isNone
  | AgentOp.opCreate _ tid _ _ _ => !(tid == id)
  | _ => true

/-- The task `id` has no in-flight provider call once it is `completed`
or `failed` (true of every reachable state: the provider call pending
for a task is resolved exactly when the task leaves `working`). -/
def pendingOkB (s : AgentState) (id : String) : Bool :=
  match TaskStore.get s.store id with
  | some t =>
      if t.status.state = TaskState.completed ∨ t.status.state = TaskState.failed
      then !(s.pending.contains id) else true
  | none => true

/-!
## Coordinator (`src/unnamed/part_001`)
-/

/-- JS numbers as they appear in capability scoring: an exact rational
or NaN.  The only divisions performed are `matches / required.length`
with `0 ≤ matches ≤ required.length`, so the only non-finite value that
can arise is `0 / 0 = NaN`, and for the list lengths involved float64
comparison agrees with the rational comparison. -/
inductive JSNum where
  | nan
  | num (q : ℚ)
  deriving DecidableEq, Repr

/-- JS division restricted to this use site: denominator `0` (hence
numerator `0`) yields NaN. -/
def jsDiv (a b : ℚ) : JSNum :=
  if b = 0 then JSNum.nan else JSNum.num (a / b)

/-- JS `>` on numbers: any comparison with NaN is false. -/
def jsGt : JSNum → JSNum → Bool
  | JSNum.num a, JSNum.num b => decide (b < a)
  | _, _ => false

/-- JS `String.prototype.toLowerCase`: lower-case character by
character. -/
def jsToLower (s : String) : String :=
  String.mk (s.toList.map Char.toLower)

/-- JS `String.prototype.includes`: substring occurrence. -/
def jsIncludes (s sub : String) : Bool :=
  s.toList.tails.any (fun t => sub.toList.isPrefixOf t)

/-- `calculateCapabilityMatch` (`part_001` lines 313-321): the number of
required tags that occur case-insensitively as a substring of at least
one available capability, divided (unguarded) by the number of required
tags. -/
def calculateCapabilityMatch (required available : List String) : JSNum :=
  let hits := (required.filter (fun req =>
    available.any (fun cap => jsIncludes (jsToLower cap) (jsToLower req)))).length
  jsDiv (hits : ℚ) (required.length : ℚ)

/-- A known agent as the coordinator sees it: registry entry name and
`entry.agentCard.capabilities`, in first-registered (insertion) order. -/
structure KnownAgent where
  name : String
  capabilities : List String
  deriving DecidableEq, Repr

/-- The best-agent fold of `assignSubtasks` (`part_001` lines 279-293):
`bestAgent = null`, `bestScore = 0`, update on strict `>`. -/
def findBestAgent (agents : List KnownAgent) (required : List String) :
    Option String :=
  (agents.foldl
    (fun best a =>
      let score := calculateCapabilityMatch required a.capabilities
      if jsGt score best.2 then (some a.name, score) else best)
    ((none : Option String), JSNum.num 0)).1

/-- The static `capabilityMap` of `selectAgentByCapability`
(`part_001` lines 327-337). -/
def capabilityMap : String → Option String
  | "research" => some "research-agent"
  | "web_search" => some "research-agent"
  | "code_generation" => some "code-agent"
  | "programming" => some "code-agent"
  | "data_processing" => some "data-agent"
  | "analysis" => some "data-agent"
  | "testing" => some "qa-agent"
  | "validation" => some "qa-agent"
  | "general" => some "research-agent"
  | _ => none

/-- `selectAgentByCapability` (`part_001` lines 326-346): first mapped
capability wins, default `research-agent`.  Total: always returns an
agent name. -/
def selectAgentByCapability (capabilities : List String) : String :=
  match capabilities.findSome? capabilityMap with
  | some a => a
  | none => "research-agent"

inductive SubtaskStatus where
  | pending
  | assigned
  | inProgress
  | completed
  | failed
  deriving DecidableEq, Repr

/-- A decomposition subtask (`TaskDecomposition.subtasks` element,
`part_001` lines 11-19).  Results are modelled as strings. -/
structure Subtask where
  id : String
  description : String
  requiredCapabilities : List String
  dependencies : List String
  assignedAgent : Option String
  status : SubtaskStatus
  result : Option String
  deriving DecidableEq, Repr

/-- Assignment of one subtask (`assignSubtasks` body, `part_001` lines
277-307): the best strict-positive scorer, else the static fallback —
which always yields an agent, so the `else` warning branch of the source
is unreachable and every subtask ends `assigned`. -/
def assignOne (agents : List KnownAgent) (t : Subtask) : Subtask :=
  let best :=
    match findBestAgent agents t.requiredCapabilities with
    | some a => a
    | none => selectAgentByCapability t.requiredCapabilities
  { t with assignedAgent := some best, status := SubtaskStatus.assigned }

/-- `assignSubtasks` (`part_001` lines 276-308). -/
def assignSubtasks (agents : List KnownAgent) (subtasks : List Subtask) :
    List Subtask :=
  subtasks.map (assignOne agents)

/-!
## Subtask execution (`executeSubtasks`, `part_001` lines 351-426)

The remote behaviour of `client.sendMessage` + `pollTaskCompletion` for
one subtask is abstracted into an oracle `String → Except String String`
keyed by the subtask id: `.ok r` is the extracted result of a remote
task that reached `completed`; `.error e` covers a remote `failed` task,
an unreachable agent and the `Task polling timeout`.  Each round runs
all ready subtasks; a failing subtask makes `Promise.all` reject, so the
round's error aborts the loop and propagates out of `executeSubtasks`.
-/

/-- `task.dependencies.every(dep => completed.has(dep))`. -/
def depsDone (completedIds : List String) (t : Subtask) : Bool :=
  t.dependencies.all (fun d => completedIds.contains d)

/-- The ready filter of a round (`part_001` lines 357-361). -/
def isReady (completedIds : List String) (t : Subtask) : Bool :=
  t.status ≠ SubtaskStatus.completed &&
  t.status ≠ SubtaskStatus.inProgress &&
  depsDone completedIds t

/-- State threaded through the execution loop.  `calls` records the
subtask ids for which a remote `message/send` was issued. -/
structure ExecState where
  subtasks : List Subtask
  completedIds : List String
  results : List (String × String)
  calls : List String
  deriving DecidableEq, Repr

/-- Outcome of executing one ready subtask. -/
structure RunResult where
  task : Subtask
  called : Bool
  err : Option String
  deriving DecidableEq, Repr

/-- One ready subtask's execution (`part_001` lines 368-420): it is set
`in_progress`, fails without a remote call when it has no assigned agent
or no client, otherwise a `message/send` is issued and polling settles
it to `completed` with a result or to `failed`. -/
def runOne (clients : List String) (oracle : String → Except String String)
    (t : Subtask) : RunResult :=
  match t.assignedAgent with
  | none =>
      { task := { t with status := SubtaskStatus.failed }
        called := false
        err := some ("No agent assigned for subtask " ++ t.id) }
  | some a =>
      if clients.contains a then
        match oracle t.id with
        | Except.ok r =>
            { task := { t with status := SubtaskStatus.completed, result := some r }
              called := true
              err := none }
        | Except.error e =>
            { task := { t with status := SubtaskStatus.failed }
              called := true
              err := some e }
      else
        { task := { t with status := SubtaskStatus.failed }
          called := false
          err := some ("No client available for agent " ++ a) }

/-- `completed.add(id)` — set insertion. -/
def addId (l : List String) (x : String) : List String :=
  if l.contains x then l else l ++ [x]

/-- `results.set(id, r)` — map update-or-append. -/
def setResult : List (String × String) → String → String → List (String × String)
  | [], id, r => [(id, r)]
  | (k, r0) :: rest, id, r =>
      if k = id then (k, r) :: rest else (k, r0) :: setResult rest id r

/-- One round: every ready subtask executes; successes record their
results and join `completed`; the first failure (in list order) becomes
the rejection of the round's `Promise.all`. -/
def roundStep (clients : List String) (oracle : String → Except String String)
    (s : ExecState) : ExecState × Option String :=
  let exec : Subtask → Option RunResult := fun t =>
    if isReady s.completedIds t then some (runOne clients oracle t) else none
  let ran := s.subtasks.filterMap exec
  ({ subtasks := s.subtasks.map (fun t => match exec t with
       | some r => r.task
       | none => t)
     completedIds := ran.foldl (fun acc r =>
       match r.err with
       | none => addId acc r.task.id
       | some _ => acc) s.completedIds
     results := ran.foldl (fun acc r =>
       match r.task.result, r.err with
       | some v, none => setResult acc r.task.id v
       | _, _ => acc) s.results
     calls := s.calls ++ (ran.filter (fun r => r.called)).map (fun r => r.task.id) },
   ran.findSome? (fun r => r.err))

/-- The `while (completed.size < subtasks.length)` loop, fuel-indexed;
`none` is fuel exhaustion, shown unreachable below. -/
def execLoop (clients : List String) (oracle : String → Except String String)
    (total : Nat) : Nat → ExecState → Option (ExecState × Option String)
  | 0, _ => none
  | fuel + 1, s =>
      if s.completedIds.length < total then
        let ready := s.subtasks.filter (isReady s.completedIds)
        if ready.isEmpty then
          some (s, some "Deadlock detected in task dependencies")
        else
          let (s1, err) := roundStep clients oracle s
          match err with
          | some e => some (s1, some e)
          | none => execLoop clients oracle total fuel s1
      else
        some (s, none)

/-- `executeSubtasks`: runs the loop with enough fuel (the loop is shown
to terminate within `subtasks.length + 1` rounds). -/
def executeSubtasks (clients : List String)
    (oracle : String → Except String String) (subtasks : List Subtask) :
    ExecState × Option String :=
  let init : ExecState := { subtasks := subtasks, completedIds := [],
                            results := [], calls := [] }
  match execLoop clients oracle subtasks.length (subtasks.length + 1) init with
  | some r => r
  | none => (init, some "fuel exhausted")

/-- `synthesizeResults` (`part_001` lines 490-514), with results already
strings. -/
def synthesizeResults (mainGoal : String) (subtasks : List Subtask)
    (results : List (String × String)) : String :=
  let header := "Task completed successfully.\n\n" ++
    "Main Goal: " ++ mainGoal ++ "\n\n" ++
    "Results from specialized agents:\n"
  subtasks.foldl (fun acc t =>
    let base := acc ++ "\n### " ++ t.description ++ "\n" ++
      "Agent: " ++ (t.assignedAgent.getD "undefined") ++ "\n" ++
      "Status: " ++ (match t.status with
        | SubtaskStatus.pending => "pending"
        | SubtaskStatus.assigned => "assigned"
        | SubtaskStatus.inProgress => "in_progress"
        | SubtaskStatus.completed => "completed"
        | SubtaskStatus.failed => "failed") ++ "\n"
    match results.find? (fun kv => kv.1 == t.id) with
    | some kv => base ++ "Result: " ++ kv.2 ++ "\n"
    | none => base) header

/-- The coordinator's `processTask` (`part_001` lines 84-152) from the
point where the decomposition is already assigned: the parent task is
set `working`, the subtask DAG executes, and the parent ends `completed`
with the synthesized response appended when execution returns, `failed`
with the thrown error recorded when it throws. -/
def coordinatorRun (task : Task) (subtasks : List Subtask)
    (clients : List String) (oracle : String → Except String String)
    (freshMsgId : String) (now : Nat) : Task × ExecState :=
  let t1 := { task with status := { state := TaskState.working,
                                    message := some "Orchestrating multi-agent task" } }
  let (final, err) := executeSubtasks clients oracle subtasks
  match err with
  | some e =>
      ({ t1 with status := { state := TaskState.failed, message := some e }
                 error := some e }, final)
  | none =>
      let text := synthesizeResults
        (match t1.messages.getLast? with
         | some m => extractTextFromMessage m
         | none => "") final.subtasks final.results
      ({ t1 with
          messages := t1.messages ++
            [{ role := "assistant", messageId := some freshMsgId,
               parts := [{ kind := PartKind.text, text := some text }],
               timestamp := some now }]
          status := { state := TaskState.completed,
                      message := some "Task orchestration completed successfully" }
          completedAt := some now }, final)

/-!
## Claim C7 — `tasks/get` on a missing id
-/

/-- C7: for every `tasks/get` request whose id names no stored task, the
dispatcher returns a JSON-RPC error response (not a success, not a
throw) and leaves the task store unchanged — but its numeric code is the
literal `404`, not the `TASK_NOT_FOUND = -32001` member of the
repository's own documented error set `A2AErrorCodes`. -/
theorem c7_tasksGet_missing_uses_404 (store : TaskStore) (id : String)
    (h : TaskStore.get store id = none) :
    handleRPCRequest store (RPCRequest.tasksGet id)
      = (RPCOutcome.rpcError 404 "Task not found", store)
    ∧ (404 : Int) ≠ A2AErrorCodes.TASK_NOT_FOUND := by
  constructor
  · simp [handleRPCRequest, h]
  · decide

/-- Witness: the dispatcher on the empty store and id `missing`. -/
theorem c7_tasksGet_missing_uses_404_witness :
    handleRPCRequest [] (RPCRequest.tasksGet "missing")
      = (RPCOutcome.rpcError 404 "Task not found", [])
    ∧ (404 : Int) ≠ A2AErrorCodes.TASK_NOT_FOUND :=
  c7_tasksGet_missing_uses_404 [] "missing" rfl

/-!
## Claim C8 — registry unregistration
-/

/-- A concrete registry entry for the counterexample. -/
def sampleEntry : RegistryEntry :=
  { name := "a1", capabilities := ["research"], status := "online" }

/-- C8 counterexample: unregistering a name that is not registered does
not succeed — the endpoint answers the HTTP 404 error
`Agent not found`, refuting the claimed idempotent success. -/
theorem c8_unregister_unknown_is_error :
    (unregisterAgent [] "a1").2 = UnregisterResponse.httpError 404 "Agent not found"
    ∧ ∀ msg, (unregisterAgent [] "a1").2 ≠ UnregisterResponse.ok msg := by
  refine ⟨rfl, ?_⟩
  intro msg h
  simp [unregisterAgent, RegistryMap.hasName, RegistryMap.get] at h

theorem registryGet_of_not_mem (m : RegistryMap) (name : String)
    (h : name ∉ m.map Prod.fst) : RegistryMap.get m name = none := by
  induction m with
  | nil => rfl
  | cons kv rest ih =>
      obtain ⟨k0, e0⟩ := kv
      simp only [List.map_cons, List.mem_cons] at h
      push_neg at h
      simp only [RegistryMap.get, if_neg (fun hq : k0 = name => h.1 hq.symm)]
      exact ih h.2

theorem registryGet_del_self (m : RegistryMap) (name : String)
    (hnodup : (m.map Prod.fst).Nodup) :
    RegistryMap.get (RegistryMap.del m name) name = none := by
  induction m with
  | nil => rfl
  | cons kv rest ih =>
      obtain ⟨k0, e0⟩ := kv
      simp only [List.map_cons, List.nodup_cons] at hnodup
      by_cases hk : k0 = name
      · subst hk
        simp only [RegistryMap.del, if_pos rfl]
        exact registryGet_of_not_mem rest k0 hnodup.1
      · simp only [RegistryMap.del, if_neg hk, RegistryMap.get, if_neg hk]
        exact ih hnodup.2

/-- C8 amended: unregistering removes the entry when present and answers
success; unregistering an unknown name answers an HTTP 404 error (it is
not a silent success) while leaving the registry map unchanged, so a
second unregister of the same name changes no map state but is reported
as an error. -/
theorem c8_unregister_behaviour (m : RegistryMap) (name : String)
    (hnodup : (m.map Prod.fst).Nodup) :
    (RegistryMap.hasName m name = true →
        (unregisterAgent m name).1 = RegistryMap.del m name
        ∧ RegistryMap.get (unregisterAgent m name).1 name = none
        ∧ (unregisterAgent m name).2
            = UnregisterResponse.ok ("Agent " ++ name ++ " unregistered"))
    ∧ (RegistryMap.hasName m name = false →
        (unregisterAgent m name).1 = m
        ∧ (unregisterAgent m name).2
            = UnregisterResponse.httpError 404 "Agent not found")
    ∧ (unregisterAgent (unregisterAgent m name).1 name).1
        = (unregisterAgent m name).1 := by
  refine ⟨?_, ?_, ?_⟩
  · intro hh
    refine ⟨by simp [unregisterAgent, hh], ?_, by simp [unregisterAgent, hh]⟩
    simp only [unregisterAgent, hh, if_pos]
    exact registryGet_del_self m name hnodup
  · intro hh
    constructor <;> simp [unregisterAgent, hh]
  · by_cases hh : RegistryMap.hasName m name = true
    · have hdel : RegistryMap.get (RegistryMap.del m name) name = none :=
        registryGet_del_self m name hnodup
      have h1 : (unregisterAgent m name).1 = RegistryMap.del m name := by
        simp [unregisterAgent, hh]
      rw [h1]
      have h2 : RegistryMap.hasName (RegistryMap.del m name) name = false := by
        simp [RegistryMap.hasName, hdel]
      simp [unregisterAgent, h2]
    · have hh2 : RegistryMap.hasName m name = false := by
        revert hh
        cases RegistryMap.hasName m name <;> simp
      have h1 : (unregisterAgent m name).1 = m := by
        simp [unregisterAgent, hh2]
      rw [h1, h1]

/-- Witness: a one-entry registry and the name `a1`. -/
theorem c8_unregister_behaviour_witness :
    ((RegistryMap.hasName [("a1", sampleEntry)] "a1" = true →
        (unregisterAgent [("a1", sampleEntry)] "a1").1
            = RegistryMap.del [("a1", sampleEntry)] "a1"
        ∧ RegistryMap.get (unregisterAgent [("a1", sampleEntry)] "a1").1 "a1" = none
        ∧ (unregisterAgent [("a1", sampleEntry)] "a1").2
            = UnregisterResponse.ok ("Agent " ++ "a1" ++ " unregistered"))
    ∧ (RegistryMap.hasName [("a1", sampleEntry)] "a1" = false →
        (unregisterAgent [("a1", sampleEntry)] "a1").1 = [("a1", sampleEntry)]
        ∧ (unregisterAgent [("a1", sampleEntry)] "a1").2
            = UnregisterResponse.httpError 404 "Agent not found")
    ∧ (unregisterAgent (unregisterAgent [("a1", sampleEntry)] "a1").1 "a1").1
        = (unregisterAgent [("a1", sampleEntry)] "a1").1) :=
  c8_unregister_behaviour [("a1", sampleEntry)] "a1" (by simp)

/-!
## Claim C3 — cancelling a terminal task
-/

/-- A concrete task already in state `cancelled`. -/
def cancelledSampleTask : Task :=
  { id := "t1", contextId := "c1"
    status := { state := TaskState.cancelled,
                message := some "Task cancelled by client request" }
    messages := [], createdAt := 0, updatedAt := some 1
    completedAt := none, error := none, metadata := [] }

/-- C3 counterexample: `cancelTask` on a task already in state
`cancelled` does not fail — the guard only rejects `completed` and
`failed`, so the call succeeds again. -/
theorem c3_cancel_cancelled_succeeds :
    (cancelTask [("t1", cancelledSampleTask)] "t1" 5).isOk = true := by
  rfl

/-- C3 amended: `cancelTask` fails with an explicit error and leaves the
store untouched exactly when the task's state is `completed` or `failed`;
every other state — including the terminal states `cancelled` and
`rejected` — is (re)cancelled successfully, so cancelling an
already-cancelled task returns success with the state still `cancelled`
(no state change on retry, but no error either). -/
theorem c3_cancel_guard_only_completed_failed (store : TaskStore)
    (id : String) (now : Nat) (t : Task)
    (hget : TaskStore.get store id = some t) :
    ((t.status.state = TaskState.completed ∨ t.status.state = TaskState.failed) →
        cancelTask store id now
          = Except.error ("Cannot cancel task in state: " ++ stateName t.status.state))
    ∧ (t.status.state ≠ TaskState.completed → t.status.state ≠ TaskState.failed →
        ∃ st1 t1, cancelTask store id now = Except.ok (st1, t1)
          ∧ t1.status.state = TaskState.cancelled
          ∧ TaskStore.get st1 id = some t1
          ∧ t1.messages = t.messages
          ∧ (t.status.state = TaskState.cancelled →
              t1.status.state = t.status.state)) := by
  constructor
  · intro hterm
    simp [cancelTask, hget, hterm]
  · intro h1 h2
    have hcond : ¬(t.status.state = TaskState.completed ∨
        t.status.state = TaskState.failed) := by
      rintro (h | h)
      · exact h1 h
      · exact h2 h
    refine ⟨TaskStore.set store id
        { t with status := { state := TaskState.cancelled,
                             message := some "Task cancelled by client request" }
                 updatedAt := some now },
      { t with status := { state := TaskState.cancelled,
                           message := some "Task cancelled by client request" }
               updatedAt := some now },
      ?_, rfl, TaskStore.get_set_self store id _, rfl, ?_⟩
    · simp [cancelTask, hget, hcond]
    · intro hc
      rw [hc]

/-- Witness: the theorem applied to the already-cancelled concrete
task. -/
theorem c3_cancel_guard_witness :
    (((cancelledSampleTask.status.state = TaskState.completed ∨
        cancelledSampleTask.status.state = TaskState.failed) →
        cancelTask [("t1", cancelledSampleTask)] "t1" 5
          = Except.error ("Cannot cancel task in state: "
              ++ stateName cancelledSampleTask.status.state))
    ∧ (cancelledSampleTask.status.state ≠ TaskState.completed →
        cancelledSampleTask.status.state ≠ TaskState.failed →
        ∃ st1 t1, cancelTask [("t1", cancelledSampleTask)] "t1" 5 = Except.ok (st1, t1)
          ∧ t1.status.state = TaskState.cancelled
          ∧ TaskStore.get st1 "t1" = some t1
          ∧ t1.messages = cancelledSampleTask.messages
          ∧ (cancelledSampleTask.status.state = TaskState.cancelled →
              t1.status.state = cancelledSampleTask.status.state))) :=
  c3_cancel_guard_only_completed_failed [("t1", cancelledSampleTask)] "t1" 5
    cancelledSampleTask rfl

/-!
## Claim C2 — `message/send` / `createTask`
-/

/-- A concrete user message carrying one text part. -/
def sampleUserMessage : Message :=
  { role := "user", messageId := some "u1"
    parts := [{ kind := PartKind.text, text := some "hello" }]
    timestamp := none }

def sampleSendParams : SendParams :=
  { contextId := none, message := some sampleUserMessage, metadata := [] }

/-- C2 counterexample: the task object `createTask` returns is not in
state `submitted`.  The un-awaited `this.processTask(taskId)` call runs
synchronously up to the provider `await` and has already mutated the
shared task object to `working` when `createTask` returns it. -/
theorem c2_returned_snapshot_is_working :
    (createTask [] sampleSendParams "task1" "ctx1" "m1" 0).returned.status.state
        = TaskState.working
    ∧ TaskState.working ≠ TaskState.submitted := by
  exact ⟨rfl, by decide⟩

/-- C2 amended: `createTask` returns without waiting for the provider
(the returned snapshot is fixed before any provider outcome exists — the
provider call is left pending), the task is inserted into the store
under the freshly generated id with the supplied message appended to its
history, other store entries are untouched, and a fresh context id is
generated exactly when none is supplied; however the returned snapshot's
state is `working` — created as `submitted` and advanced by the
synchronous start of processing before the call returns — not
`submitted`. -/
theorem c2_createTask_behaviour (store : TaskStore) (params : SendParams)
    (tid cid mid : String) (now : Nat) (m : Message)
    (hfresh : TaskStore.get store tid = none)
    (hm : params.message = some m) :
    TaskStore.get (createTask store params tid cid mid now).store tid
        = some (createTask store params tid cid mid now).returned
    ∧ (∀ id2, id2 ≠ tid →
        TaskStore.get (createTask store params tid cid mid now).store id2
          = TaskStore.get store id2)
    ∧ (createTask store params tid cid mid now).returned.messages
        = [ensureMessageId m mid]
    ∧ (createTask store params tid cid mid now).returned.id = tid
    ∧ (params.contextId = none →
        (createTask store params tid cid mid now).returned.contextId = cid)
    ∧ (∀ c, params.contextId = some c →
        (createTask store params tid cid mid now).returned.contextId = c)
    ∧ (createTask store params tid cid mid now).returned.status.state
        = TaskState.working
    ∧ (createTask store params tid cid mid now).pendingPrompt
        = some (extractTextFromMessage (ensureMessageId m mid)) := by
  refine ⟨?_, ?_, ?_, ?_, ?_, ?_, ?_, ?_⟩
  · simp [createTask, hm, processTaskStart, TaskStore.get_set_self]
  · intro id2 hne
    simp only [createTask, hm]
    rw [TaskStore.get_set_ne _ _ _ _ hne, TaskStore.get_set_ne _ _ _ _ hne]
  · simp [createTask, hm, processTaskStart]
  · simp [createTask, hm, processTaskStart]
  · intro hc
    simp [createTask, hm, hc, processTaskStart]
  · intro c hc
    simp [createTask, hm, hc, processTaskStart]
  · simp [createTask, hm, processTaskStart]
  · simp [createTask, hm, processTaskStart]

/-- Witness: `createTask` on the empty store with the sample message. -/
theorem c2_createTask_behaviour_witness :
    (TaskStore.get (createTask [] sampleSendParams "task1" "ctx1" "m1" 0).store "task1"
        = some (createTask [] sampleSendParams "task1" "ctx1" "m1" 0).returned
    ∧ (∀ id2, id2 ≠ "task1" →
        TaskStore.get (createTask [] sampleSendParams "task1" "ctx1" "m1" 0).store id2
          = TaskStore.get [] id2)
    ∧ (createTask [] sampleSendParams "task1" "ctx1" "m1" 0).returned.messages
        = [ensureMessageId sampleUserMessage "m1"]
    ∧ (createTask [] sampleSendParams "task1" "ctx1" "m1" 0).returned.id = "task1"
    ∧ (sampleSendParams.contextId = none →
        (createTask [] sampleSendParams "task1" "ctx1" "m1" 0).returned.contextId = "ctx1")
    ∧ (∀ c, sampleSendParams.contextId = some c →
        (createTask [] sampleSendParams "task1" "ctx1" "m1" 0).returned.contextId = c)
    ∧ (createTask [] sampleSendParams "task1" "ctx1" "m1" 0).returned.status.state
        = TaskState.working
    ∧ (createTask [] sampleSendParams "task1" "ctx1" "m1" 0).pendingPrompt
        = some (extractTextFromMessage (ensureMessageId sampleUserMessage "m1"))) :=
  c2_createTask_behaviour [] sampleSendParams "task1" "ctx1" "m1" 0
    sampleUserMessage rfl rfl

/-!
## Claim C9 — processing always settles to a terminal state
-/

/-- C9: running `processTask` on any stored task settles it to a
terminal state: `completed` with the provider response appended as a new
agent-authored message when the provider returns, `failed` with the
provider's error text recorded in the status message (and in
`task.error`) when the provider throws, and `failed` with
`No message provided` when the task has no message — never left
`working`. -/
theorem c9_processTask_settles_terminal (store : TaskStore) (id : String)
    (t : Task) (provider : String → Except String String)
    (mid : String) (now : Nat)
    (hget : TaskStore.get store id = some t) :
    ∃ store1, processTaskFull store id provider mid now = Except.ok store1
    ∧ ∃ t1, TaskStore.get store1 id = some t1
    ∧ (t1.status.state = TaskState.completed ∨ t1.status.state = TaskState.failed)
    ∧ (t.messages = [] →
        t1.status.state = TaskState.failed
        ∧ t1.status.message = some "No message provided")
    ∧ (∀ m, t.messages.getLast? = some m →
        (∀ r, provider (extractTextFromMessage m) = Except.ok r →
            t1.status.state = TaskState.completed
            ∧ t1.messages = t.messages ++ [responseMessage r mid now])
        ∧ (∀ e, provider (extractTextFromMessage m) = Except.error e →
            t1.status.state = TaskState.failed
            ∧ t1.status.message = some e
            ∧ t1.error = some e)) := by
  cases hlast : t.messages.getLast? with
  | none =>
      have hnil : t.messages = [] := by
        cases hm : t.messages with
        | nil => rfl
        | cons a l => rw [hm] at hlast; simp at hlast
      refine ⟨TaskStore.set store id
          { t with status := { state := TaskState.failed,
                               message := some "No message provided" }
                   error := some "No message provided" }, ?_,
        { t with status := { state := TaskState.failed,
                             message := some "No message provided" }
                 error := some "No message provided" },
        TaskStore.get_set_self store id _, Or.inr rfl,
        fun _ => ⟨rfl, rfl⟩, ?_⟩
      · simp only [processTaskFull, hget, processTaskStart, hlast]
      · intro m hm
        exact Option.noConfusion hm
  | some m =>
      have hne : t.messages ≠ [] := by
        intro hq
        rw [hq] at hlast
        cases hlast
      cases hprov : provider (extractTextFromMessage m) with
      | ok r =>
          refine ⟨TaskStore.set store id
              { t with messages := t.messages ++ [responseMessage r mid now]
                       status := { state := TaskState.completed,
                                   message := some "Task completed successfully" }
                       completedAt := some now }, ?_,
            { t with messages := t.messages ++ [responseMessage r mid now]
                     status := { state := TaskState.completed,
                                 message := some "Task completed successfully" }
                     completedAt := some now },
            TaskStore.get_set_self store id _, Or.inl rfl,
            fun hq => absurd hq hne, ?_⟩
          · simp only [processTaskFull, hget, processTaskStart, hlast, hprov,
              processTaskResume]
          · intro m2 hm2
            cases hm2
            constructor
            · intro r2 hr2
              rw [hprov] at hr2
              cases hr2
              exact ⟨rfl, rfl⟩
            · intro e2 he2
              rw [hprov] at he2
              cases he2
      | error e =>
          refine ⟨TaskStore.set store id
              { t with status := { state := TaskState.failed, message := some e }
                       error := some e }, ?_,
            { t with status := { state := TaskState.failed, message := some e }
                     error := some e },
            TaskStore.get_set_self store id _, Or.inr rfl,
            fun hq => absurd hq hne, ?_⟩
          · simp only [processTaskFull, hget, processTaskStart, hlast, hprov,
              processTaskResume]
          · intro m2 hm2
            cases hm2
            constructor
            · intro r2 hr2
              rw [hprov] at hr2
              cases hr2
            · intro e2 he2
              rw [hprov] at he2
              cases he2
              exact ⟨rfl, rfl, rfl⟩

/-- Witness: a stored task with one text message and a provider that
answers `ok`. -/
theorem c9_processTask_settles_terminal_witness :
    ∃ store1,
      processTaskFull
          [("t1", (createTask [] sampleSendParams "t1" "c1" "m1" 0).returned)]
          "t1" (fun _ => Except.ok "resp") "m2" 7
        = Except.ok store1
    ∧ ∃ t1, TaskStore.get store1 "t1" = some t1
    ∧ (t1.status.state = TaskState.completed ∨ t1.status.state = TaskState.failed)
    ∧ ((createTask [] sampleSendParams "t1" "c1" "m1" 0).returned.messages = [] →
        t1.status.state = TaskState.failed
        ∧ t1.status.message = some "No message provided")
    ∧ (∀ m, (createTask [] sampleSendParams "t1" "c1" "m1" 0).returned.messages.getLast?
          = some m →
        (∀ r, (fun (_ : String) => Except.ok (ε := String) "resp")
              (extractTextFromMessage m) = Except.ok r →
            t1.status.state = TaskState.completed
            ∧ t1.messages
                = (createTask [] sampleSendParams "t1" "c1" "m1" 0).returned.messages
                    ++ [responseMessage r "m2" 7])
        ∧ (∀ e, (fun (_ : String) => Except.ok (ε := String) "resp")
              (extractTextFromMessage m) = Except.error e →
            t1.status.state = TaskState.failed
            ∧ t1.status.message = some e
            ∧ t1.error = some e)) :=
  c9_processTask_settles_terminal
    [("t1", (createTask [] sampleSendParams "t1" "c1" "m1" 0).returned)]
    "t1" (createTask [] sampleSendParams "t1" "c1" "m1" 0).returned
    (fun _ => Except.ok "resp") "m2" 7 rfl

/-!
## Claim C10 — capability match score
-/

/-- The count named by the claim: required tags occurring
case-insensitively as a substring of at least one offered capability. -/
def matchCount (required available : List String) : Nat :=
  (required.filter (fun req =>
    available.any (fun cap => jsIncludes (jsToLower cap) (jsToLower req)))).length

theorem matchCount_le_length (required available : List String) :
    matchCount required available ≤ required.length :=
  List.length_filter_le _ _

theorem jsGt_nan_left (x : JSNum) : jsGt JSNum.nan x = false := by
  cases x <;> rfl

/-- The best-agent fold never selects anyone when every score is NaN. -/
theorem findBestAgent_nil_required (agents : List KnownAgent) :
    findBestAgent agents [] = none := by
  have hfold : ∀ l : List KnownAgent,
      (l.foldl
        (fun best a =>
          let score := calculateCapabilityMatch [] a.capabilities
          if jsGt score best.2 then (some a.name, score) else best)
        ((none : Option String), JSNum.num 0))
      = ((none : Option String), JSNum.num 0) := by
    intro l
    induction l with
    | nil => rfl
    | cons a rest ih =>
        have hnan : calculateCapabilityMatch [] a.capabilities = JSNum.nan := by
          simp [calculateCapabilityMatch, jsDiv]
        simpa [hnan, jsGt_nan_left] using ih
  simp [findBestAgent, hfold]

/-- C10: for a non-empty required list the score is the exact fraction
`matchCount / required.length ∈ [0,1]`; for an empty required list the
unguarded `0 / 0` yields NaN, every `score > bestScore` comparison in
the assignment fold is false, and no agent is ever selected by it. -/
theorem c10_capability_score (required available : List String)
    (agents : List KnownAgent) (h : required ≠ []) :
    calculateCapabilityMatch required available
        = JSNum.num ((matchCount required available : ℚ) / (required.length : ℚ))
    ∧ (0 : ℚ) ≤ (matchCount required available : ℚ) / (required.length : ℚ)
    ∧ (matchCount required available : ℚ) / (required.length : ℚ) ≤ 1
    ∧ calculateCapabilityMatch [] available = JSNum.nan
    ∧ (∀ x, jsGt (calculateCapabilityMatch [] available) x = false)
    ∧ findBestAgent agents [] = none := by
  have hlen : (0 : ℚ) < (required.length : ℚ) := by
    have : 0 < required.length := List.length_pos.mpr h
    exact_mod_cast this
  refine ⟨?_, ?_, ?_, ?_, ?_, findBestAgent_nil_required agents⟩
  · simp only [calculateCapabilityMatch, matchCount, jsDiv]
    rw [if_neg (ne_of_gt hlen)]
  · positivity
  · rw [div_le_one hlen]
    exact_mod_cast matchCount_le_length required available
  · simp [calculateCapabilityMatch, jsDiv]
  · intro x
    have hnan : calculateCapabilityMatch [] available = JSNum.nan := by
      simp [calculateCapabilityMatch, jsDiv]
    rw [hnan]
    exact jsGt_nan_left x

/-- Witness: required `["research"]` against capabilities
`["research", "web_search"]`. -/
theorem c10_capability_score_witness :
    (calculateCapabilityMatch ["research"] ["research", "web_search"]
        = JSNum.num ((matchCount ["research"] ["research", "web_search"] : ℚ)
            / ((["research"] : List String).length : ℚ))
    ∧ (0 : ℚ) ≤ (matchCount ["research"] ["research", "web_search"] : ℚ)
        / ((["research"] : List String).length : ℚ)
    ∧ (matchCount ["research"] ["research", "web_search"] : ℚ)
        / ((["research"] : List String).length : ℚ) ≤ 1
    ∧ calculateCapabilityMatch [] ["research", "web_search"] = JSNum.nan
    ∧ (∀ x, jsGt (calculateCapabilityMatch [] ["research", "web_search"]) x = false)
    ∧ findBestAgent [] [] = none) :=
  c10_capability_score ["research"] ["research", "web_search"] [] (by decide)

/-!
## Claim C4 — capability-based assignment
-/

/-- A subtask requiring a capability no agent offers. -/
def billingSubtask : Subtask :=
  { id := "s1", description := "compute the invoice"
    requiredCapabilities := ["billing"], dependencies := []
    assignedAgent := none, status := SubtaskStatus.pending, result := none }

/-- The rational value of the capability score (exact for a non-empty
required list, see `c10_capability_score`). -/
def scoreQ (required caps : List String) : ℚ :=
  (matchCount required caps : ℚ) / (required.length : ℚ)

theorem calcMatch_eq_num (required caps : List String) (h : required ≠ []) :
    calculateCapabilityMatch required caps = JSNum.num (scoreQ required caps) := by
  have hlen : ((required.length : ℚ)) ≠ 0 := by
    have : 0 < required.length := List.length_pos.mpr h
    exact_mod_cast Nat.pos_iff_ne_zero.mp this
  simp only [calculateCapabilityMatch, matchCount, scoreQ, jsDiv, if_neg hlen]

/-- C4 counterexample: with one known agent that scores zero on the
required tag `billing` (so no agent scores above zero), `assignSubtasks`
does not leave the subtask unassigned and raises no "no capable agent"
error — the static fallback `selectAgentByCapability` assigns
`research-agent`. -/
theorem c4_no_capable_agent_still_assigned :
    assignSubtasks [{ name := "data-agent", capabilities := ["data_processing"] }]
        [billingSubtask]
      = [{ id := "s1", description := "compute the invoice"
           requiredCapabilities := ["billing"], dependencies := []
           assignedAgent := some "research-agent"
           status := SubtaskStatus.assigned, result := none }] := by
  have hscore : calculateCapabilityMatch ["billing"] ["data_processing"]
      = JSNum.num 0 := by
    have hmc : matchCount ["billing"] ["data_processing"] = 0 := by decide
    have := calcMatch_eq_num ["billing"] ["data_processing"] (by decide)
    rw [this, scoreQ, hmc]
    norm_num
  have hnone : findBestAgent
      [{ name := "data-agent", capabilities := ["data_processing"] }]
      ["billing"] = none := by
    simp only [findBestAgent, List.foldl_cons, List.foldl_nil]
    rw [show calculateCapabilityMatch ["billing"]
        ({ name := "data-agent",
           capabilities := ["data_processing"] } : KnownAgent).capabilities
        = JSNum.num 0 from hscore]
    norm_num [jsGt]
  simp only [assignSubtasks, List.map_cons, List.map_nil, assignOne]
  rw [show billingSubtask.requiredCapabilities = ["billing"] from rfl, hnone]
  rfl

/-- The rational-valued mirror of the best-agent fold step. -/
def stepQ (required : List String) (best : Option String × ℚ)
    (a : KnownAgent) : Option String × ℚ :=
  if best.2 < scoreQ required a.capabilities
  then (some a.name, scoreQ required a.capabilities) else best

theorem foldBest_eq_foldQ (required : List String) (h : required ≠ [])
    (l : List KnownAgent) (bn : Option String) (bq : ℚ) :
    (l.foldl
      (fun best a =>
        let score := calculateCapabilityMatch required a.capabilities
        if jsGt score best.2 then (some a.name, score) else best)
      (bn, JSNum.num bq))
    = ((l.foldl (stepQ required) (bn, bq)).1,
       JSNum.num (l.foldl (stepQ required) (bn, bq)).2) := by
  induction l generalizing bn bq with
  | nil => rfl
  | cons a rest ih =>
      simp only [List.foldl_cons]
      rw [calcMatch_eq_num required a.capabilities h]
      by_cases hgt : bq < scoreQ required a.capabilities
      · rw [show (jsGt (JSNum.num (scoreQ required a.capabilities)) (bn, JSNum.num bq).2) = true
            from by simp [jsGt, hgt]]
        simp only [if_pos, stepQ, hgt, if_true]
        exact ih _ _
      · rw [show (jsGt (JSNum.num (scoreQ required a.capabilities)) (bn, JSNum.num bq).2) = false
            from by simp [jsGt, hgt]]
        simp only [Bool.false_eq_true, if_false, stepQ, hgt, if_neg]
        exact ih _ _

/-- Characterization of the rational best-agent fold: either nothing
beats the starting score (and the accumulator survives), or the list
splits around the selected agent, whose score strictly beats the start
and every earlier agent's score, while no later agent's score strictly
beats it (ties keep the earlier selection). -/
theorem foldQ_spec (required : List String) (l : List KnownAgent)
    (bn : Option String) (bq : ℚ) :
    (l.foldl (stepQ required) (bn, bq) = (bn, bq)
      ∧ ∀ b ∈ l, scoreQ required b.capabilities ≤ bq)
    ∨ (∃ l1 a l2, l = l1 ++ a :: l2
        ∧ l.foldl (stepQ required) (bn, bq)
            = (some a.name, scoreQ required a.capabilities)
        ∧ bq < scoreQ required a.capabilities
        ∧ (∀ b ∈ l1, scoreQ required b.capabilities < scoreQ required a.capabilities)
        ∧ (∀ b ∈ l2, scoreQ required b.capabilities ≤ scoreQ required a.capabilities)) := by
  induction l generalizing bn bq with
  | nil =>
      left
      exact ⟨rfl, by intro b hb; cases hb⟩
  | cons c rest ih =>
      by_cases hgt : bq < scoreQ required c.capabilities
      · have hstep : stepQ required (bn, bq) c
            = (some c.name, scoreQ required c.capabilities) := by
          simp [stepQ, hgt]
        rcases ih (some c.name) (scoreQ required c.capabilities) with
          ⟨heq, hall⟩ | ⟨l1, a, l2, hsplit, heq, hlt, hbefore, hafter⟩
        · right
          refine ⟨[], c, rest, by simp, ?_, hgt,
            fun b hb => absurd hb (List.not_mem_nil b), hall⟩
          simp only [List.foldl_cons, hstep]
          exact heq
        · right
          refine ⟨c :: l1, a, l2, by simp [hsplit], ?_, ?_, ?_, hafter⟩
          · simp only [List.foldl_cons, hstep]
            exact heq
          · exact lt_trans hgt hlt
          · intro b hb
            rcases List.mem_cons.mp hb with hb | hb
            · subst hb
              exact hlt
            · exact hbefore b hb
      · have hstep : stepQ required (bn, bq) c = (bn, bq) := by
          simp [stepQ, hgt]
        rcases ih bn bq with
          ⟨heq, hall⟩ | ⟨l1, a, l2, hsplit, heq, hlt, hbefore, hafter⟩
        · left
          constructor
          · simp only [List.foldl_cons, hstep]
            exact heq
          · intro b hb
            rcases List.mem_cons.mp hb with hb | hb
            · subst hb
              exact le_of_not_lt hgt
            · exact hall b hb
        · right
          refine ⟨c :: l1, a, l2, by simp [hsplit], ?_, hlt, ?_, hafter⟩
          · simp only [List.foldl_cons, hstep]
            exact heq
          · intro b hb
            rcases List.mem_cons.mp hb with hb | hb
            · subst hb
              exact lt_of_le_of_lt (le_of_not_lt hgt) hlt
            · exact hbefore b hb

/-- C4 amended: during assignment every subtask is scored against every
known agent by the coverage fraction; when some agent scores above zero
the first highest-scoring agent (in registration order) is assigned —
strictly above all earlier agents, at least as high as all later ones —
but when no known agent scores above zero the subtask is not left
unassigned and no "no capable agent" failure exists: the static
`selectAgentByCapability` map assigns a default agent
(`research-agent` when no capability is in the map), so every subtask
of `assignSubtasks` comes back `assigned`. -/
theorem c4_assignment_behaviour (agents : List KnownAgent)
    (subtasks : List Subtask) (t : Subtask) (ht : t ∈ subtasks)
    (h : t.requiredCapabilities ≠ []) :
    assignOne agents t ∈ assignSubtasks agents subtasks
    ∧ (assignOne agents t).status = SubtaskStatus.assigned
    ∧ ∃ nm, (assignOne agents t).assignedAgent = some nm
    ∧ ((∃ l1 a l2, agents = l1 ++ a :: l2
          ∧ nm = a.name
          ∧ 0 < scoreQ t.requiredCapabilities a.capabilities
          ∧ (∀ b ∈ l1, scoreQ t.requiredCapabilities b.capabilities
              < scoreQ t.requiredCapabilities a.capabilities)
          ∧ (∀ b ∈ l2, scoreQ t.requiredCapabilities b.capabilities
              ≤ scoreQ t.requiredCapabilities a.capabilities))
      ∨ ((∀ b ∈ agents, scoreQ t.requiredCapabilities b.capabilities ≤ 0)
          ∧ nm = selectAgentByCapability t.requiredCapabilities)) := by
  refine ⟨List.mem_map_of_mem _ ht, rfl, ?_⟩
  have hfold := foldBest_eq_foldQ t.requiredCapabilities h agents none 0
  rcases foldQ_spec t.requiredCapabilities agents none 0 with
    ⟨heq, hall⟩ | ⟨l1, a, l2, hsplit, heq, hlt, hbefore, hafter⟩
  · have hnone : findBestAgent agents t.requiredCapabilities = none := by
      simp only [findBestAgent, hfold, heq]
    refine ⟨selectAgentByCapability t.requiredCapabilities, ?_, Or.inr ⟨hall, rfl⟩⟩
    simp [assignOne, hnone]
  · have hsome : findBestAgent agents t.requiredCapabilities = some a.name := by
      simp only [findBestAgent, hfold, heq]
    refine ⟨a.name, ?_, Or.inl ⟨l1, a, l2, hsplit, rfl, hlt, hbefore, hafter⟩⟩
    simp [assignOne, hsome]

/-- The concrete agent and subtask of the C4 witness. -/
def researchAgent : KnownAgent :=
  { name := "research-agent", capabilities := ["research"] }

def researchSubtask : Subtask :=
  { id := "s1", description := "find facts"
    requiredCapabilities := ["research"], dependencies := []
    assignedAgent := none, status := SubtaskStatus.pending, result := none }

/-- Witness: one registered agent that covers the single required tag. -/
theorem c4_assignment_behaviour_witness :
    (assignOne [researchAgent] researchSubtask
        ∈ assignSubtasks [researchAgent] [researchSubtask]
    ∧ (assignOne [researchAgent] researchSubtask).status = SubtaskStatus.assigned
    ∧ ∃ nm, (assignOne [researchAgent] researchSubtask).assignedAgent = some nm
    ∧ ((∃ l1 a l2, [researchAgent] = l1 ++ a :: l2
          ∧ nm = a.name
          ∧ 0 < scoreQ researchSubtask.requiredCapabilities a.capabilities
          ∧ (∀ b ∈ l1, scoreQ researchSubtask.requiredCapabilities b.capabilities
              < scoreQ researchSubtask.requiredCapabilities a.capabilities)
          ∧ (∀ b ∈ l2, scoreQ researchSubtask.requiredCapabilities b.capabilities
              ≤ scoreQ researchSubtask.requiredCapabilities a.capabilities))
      ∨ ((∀ b ∈ [researchAgent],
            scoreQ researchSubtask.requiredCapabilities b.capabilities ≤ 0)
          ∧ nm = selectAgentByCapability researchSubtask.requiredCapabilities))) :=
  c4_assignment_behaviour [researchAgent] [researchSubtask] researchSubtask
    (List.mem_singleton.mpr rfl) (by decide)

/-!
## Execution-loop lemmas (for the subtask-DAG claims)
-/

theorem findSome?_err_none (l : List RunResult)
    (h : l.findSome? (fun r => r.err) = none) :
    ∀ r ∈ l, r.err = none := by
  induction l with
  | nil => intro r hr; cases hr
  | cons a l ih =>
      intro r hr
      rw [List.findSome?_cons] at h
      cases ha : a.err with
      | some e => rw [ha] at h; cases h
      | none =>
          rw [ha] at h
          rcases List.mem_cons.mp hr with hr | hr
          · rw [hr]; exact ha
          · exact ih h r hr

theorem runOne_id (clients : List String) (oracle : String → Except String String)
    (t : Subtask) : (runOne clients oracle t).task.id = t.id := by
  cases h : t.assignedAgent with
  | none => simp [runOne, h]
  | some a =>
      by_cases hc : a ∈ clients
      · cases ho : oracle t.id <;> simp [runOne, h, hc, ho]
      · simp [runOne, h, hc]

theorem runOne_deps (clients : List String) (oracle : String → Except String String)
    (t : Subtask) : (runOne clients oracle t).task.dependencies = t.dependencies := by
  cases h : t.assignedAgent with
  | none => simp [runOne, h]
  | some a =>
      by_cases hc : a ∈ clients
      · cases ho : oracle t.id <;> simp [runOne, h, hc, ho]
      · simp [runOne, h, hc]

theorem runOne_err_none (clients : List String)
    (oracle : String → Except String String) (t : Subtask)
    (h : (runOne clients oracle t).err = none) :
    (runOne clients oracle t).task.status = SubtaskStatus.completed
    ∧ (runOne clients oracle t).task.result.isSome = true := by
  cases ha : t.assignedAgent with
  | none => simp [runOne, ha] at h
  | some a =>
      by_cases hc : a ∈ clients
      · cases ho : oracle t.id with
        | ok r => simp [runOne, ha, hc, ho]
        | error e => simp [runOne, ha, hc, ho] at h
      · simp [runOne, ha, hc] at h

theorem runOne_status (clients : List String)
    (oracle : String → Except String String) (t : Subtask) :
    (runOne clients oracle t).task.status = SubtaskStatus.completed
    ∨ (runOne clients oracle t).task.status = SubtaskStatus.failed := by
  cases ha : t.assignedAgent with
  | none => exact Or.inr (by simp [runOne, ha])
  | some a =>
      by_cases hc : a ∈ clients
      · cases ho : oracle t.id with
        | ok r => exact Or.inl (by simp [runOne, ha, hc, ho])
        | error e => exact Or.inr (by simp [runOne, ha, hc, ho])
      · exact Or.inr (by simp [runOne, ha, hc])

theorem addId_sub (l : List String) (x : String) : l ⊆ addId l x := by
  unfold addId
  by_cases h : l.contains x = true
  · rw [if_pos h]
    exact fun y hy => hy
  · rw [if_neg h]
    exact List.subset_append_left l [x]

theorem mem_addId (l : List String) (x y : String) (h : y ∈ addId l x) :
    y ∈ l ∨ y = x := by
  unfold addId at h
  by_cases hc : l.contains x = true
  · rw [if_pos hc] at h
    exact Or.inl h
  · rw [if_neg hc] at h
    rcases List.mem_append.mp h with h | h
    · exact Or.inl h
    · exact Or.inr (List.mem_singleton.mp h)

theorem addId_nodup (l : List String) (x : String) (h : l.Nodup) :
    (addId l x).Nodup := by
  unfold addId
  by_cases hc : l.contains x = true
  · rw [if_pos hc]
    exact h
  · rw [if_neg hc]
    refine List.Nodup.append h (List.nodup_singleton x) ?_
    intro a ha hb
    rw [List.mem_singleton.mp hb] at ha
    have hx : x ∉ l := by simpa using hc
    exact hx ha

/-- The completed-id fold of a round, as used in `roundStep`. -/
def roundCompleted (ran : List RunResult) (acc : List String) : List String :=
  ran.foldl (fun acc r =>
    match r.err with
    | none => addId acc r.task.id
    | some _ => acc) acc

theorem roundCompleted_sub (ran : List RunResult) (acc : List String) :
    acc ⊆ roundCompleted ran acc := by
  induction ran generalizing acc with
  | nil => exact fun x h => h
  | cons r rest ih =>
      intro x hx
      simp only [roundCompleted, List.foldl_cons]
      cases hr : r.err with
      | none => exact ih (addId acc r.task.id) (addId_sub acc r.task.id hx)
      | some e => exact ih acc hx

theorem mem_roundCompleted (ran : List RunResult) (acc : List String)
    (y : String) (h : y ∈ roundCompleted ran acc) :
    y ∈ acc ∨ ∃ r ∈ ran, r.err = none ∧ r.task.id = y := by
  induction ran generalizing acc with
  | nil => exact Or.inl h
  | cons r rest ih =>
      simp only [roundCompleted, List.foldl_cons] at h
      cases hr : r.err with
      | none =>
          rw [hr] at h
          rcases ih (addId acc r.task.id) h with h2 | ⟨r2, hr2, he2, hid2⟩
          · rcases mem_addId acc r.task.id y h2 with h3 | h3
            · exact Or.inl h3
            · exact Or.inr ⟨r, List.mem_cons_self r rest, hr, h3.symm⟩
          · exact Or.inr ⟨r2, List.mem_cons_of_mem r hr2, he2, hid2⟩
      | some e =>
          rw [hr] at h
          rcases ih acc h with h2 | ⟨r2, hr2, he2, hid2⟩
          · exact Or.inl h2
          · exact Or.inr ⟨r2, List.mem_cons_of_mem r hr2, he2, hid2⟩

theorem roundCompleted_nodup (ran : List RunResult) (acc : List String)
    (h : acc.Nodup) : (roundCompleted ran acc).Nodup := by
  induction ran generalizing acc with
  | nil => exact h
  | cons r rest ih =>
      simp only [roundCompleted, List.foldl_cons]
      cases hr : r.err with
      | none => exact ih _ (addId_nodup acc r.task.id h)
      | some e => exact ih _ h

/-- The per-subtask transformer of a round. -/
def roundG (clients : List String) (oracle : String → Except String String)
    (comp : List String) (t : Subtask) : Subtask :=
  if isReady comp t then (runOne clients oracle t).task else t

/-- The executed (ready) subtasks of a round, in list order. -/
def roundRan (clients : List String) (oracle : String → Except String String)
    (s : ExecState) : List RunResult :=
  s.subtasks.filterMap (fun t =>
    if isReady s.completedIds t then some (runOne clients oracle t) else none)

theorem roundStep_subtasks (clients : List String)
    (oracle : String → Except String String) (s : ExecState) :
    (roundStep clients oracle s).1.subtasks
      = s.subtasks.map (roundG clients oracle s.completedIds) := by
  simp only [roundStep]
  apply List.map_congr_left
  intro t ht
  by_cases h : isReady s.completedIds t = true
  · simp [roundG, h]
  · simp [roundG, h]

theorem roundStep_completedIds (clients : List String)
    (oracle : String → Except String String) (s : ExecState) :
    (roundStep clients oracle s).1.completedIds
      = roundCompleted (roundRan clients oracle s) s.completedIds := rfl

theorem roundStep_err (clients : List String)
    (oracle : String → Except String String) (s : ExecState) :
    (roundStep clients oracle s).2
      = (roundRan clients oracle s).findSome? (fun r => r.err) := rfl

theorem roundStep_calls (clients : List String)
    (oracle : String → Except String String) (s : ExecState) :
    (roundStep clients oracle s).1.calls
      = s.calls ++ ((roundRan clients oracle s).filter
          (fun r => r.called)).map (fun r => r.task.id) := rfl

theorem mem_roundRan (clients : List String)
    (oracle : String → Except String String) (s : ExecState) (r : RunResult)
    (h : r ∈ roundRan clients oracle s) :
    ∃ t ∈ s.subtasks, isReady s.completedIds t = true
      ∧ r = runOne clients oracle t := by
  rw [roundRan, List.mem_filterMap] at h
  obtain ⟨t, ht, hr⟩ := h
  by_cases hready : isReady s.completedIds t = true
  · rw [if_pos hready] at hr
    exact ⟨t, ht, hready, (Option.some_injective _ hr).symm⟩
  · rw [if_neg hready] at hr
    cases hr

theorem roundG_not_ready (clients : List String)
    (oracle : String → Except String String) (comp : List String)
    (t : Subtask) (h : isReady comp t = false) :
    roundG clients oracle comp t = t := by
  simp [roundG, h]

theorem roundG_id (clients : List String)
    (oracle : String → Except String String) (comp : List String)
    (t : Subtask) : (roundG clients oracle comp t).id = t.id := by
  by_cases h : isReady comp t = true
  · simp [roundG, h, runOne_id]
  · simp [roundG, h]

theorem roundG_deps (clients : List String)
    (oracle : String → Except String String) (comp : List String)
    (t : Subtask) :
    (roundG clients oracle comp t).dependencies = t.dependencies := by
  by_cases h : isReady comp t = true
  · simp [roundG, h, runOne_deps]
  · simp [roundG, h]

/-- A completed subtask is never ready. -/
theorem isReady_of_completed (comp : List String) (t : Subtask)
    (h : t.status = SubtaskStatus.completed) :
    isReady comp t = false := by
  simp [isReady, h]

/-- Loop lemma L1: structure preservation — subtask count and ids are
preserved, the completed-id set only grows and stays duplicate-free. -/
theorem execLoop_structure (clients : List String)
    (oracle : String → Except String String) (total : Nat) :
    ∀ fuel (s fin : ExecState) (err : Option String),
      execLoop clients oracle total fuel s = some (fin, err) →
      fin.subtasks.length = s.subtasks.length
      ∧ fin.subtasks.map (fun t => t.id) = s.subtasks.map (fun t => t.id)
      ∧ s.completedIds ⊆ fin.completedIds
      ∧ (s.completedIds.Nodup → fin.completedIds.Nodup) := by
  intro fuel
  induction fuel with
  | zero => intro s fin err h; cases h
  | succ fuel ih =>
      intro s fin err hstep
      simp only [execLoop] at hstep
      by_cases hlt : s.completedIds.length < total
      · rw [if_pos hlt] at hstep
        by_cases hre : (s.subtasks.filter (isReady s.completedIds)).isEmpty = true
        · rw [if_pos hre] at hstep
          injection hstep with hp
          injection hp with h1 h2
          rw [← h1]
          exact ⟨rfl, rfl, fun x hx => hx, fun h => h⟩
        · rw [if_neg hre] at hstep
          rcases hrs : roundStep clients oracle s with ⟨s1, e1⟩
          rw [hrs] at hstep
          have hsub1 : s1.subtasks = s.subtasks.map
              (roundG clients oracle s.completedIds) := by
            rw [show s1 = (roundStep clients oracle s).1 from by rw [hrs]]
            exact roundStep_subtasks clients oracle s
          have hcomp1 : s1.completedIds
              = roundCompleted (roundRan clients oracle s) s.completedIds := by
            rw [show s1 = (roundStep clients oracle s).1 from by rw [hrs]]
            exact roundStep_completedIds clients oracle s
          have hlen1 : s1.subtasks.length = s.subtasks.length := by
            rw [hsub1, List.length_map]
          have hids1 : s1.subtasks.map (fun t => t.id)
              = s.subtasks.map (fun t => t.id) := by
            rw [hsub1, List.map_map]
            apply List.map_congr_left
            intro t ht
            exact roundG_id clients oracle s.completedIds t
          have hsub : s.completedIds ⊆ s1.completedIds := by
            rw [hcomp1]
            exact roundCompleted_sub _ _
          have hnd : s.completedIds.Nodup → s1.completedIds.Nodup := by
            intro h
            rw [hcomp1]
            exact roundCompleted_nodup _ _ h
          cases e1 with
          | some e =>
              injection hstep with hp
              injection hp with h1 h2
              rw [← h1]
              exact ⟨hlen1, hids1, hsub, hnd⟩
          | none =>
              obtain ⟨hl, hi, hs, hn⟩ := ih s1 fin err hstep
              exact ⟨hl.trans hlen1, hi.trans hids1,
                fun x hx => hs (hsub hx), fun h => hn (hnd h)⟩
      · rw [if_neg hlt] at hstep
        injection hstep with hp
        injection hp with h1 h2
        rw [← h1]
        exact ⟨rfl, rfl, fun x hx => hx, fun h => h⟩

/-- A subtask with a dependency outside the completed set is not
ready. -/
theorem isReady_false_of_missing_dep (comp : List String) (t : Subtask)
    (d : String) (hd : d ∈ t.dependencies) (hmem : d ∉ comp) :
    isReady comp t = false := by
  cases hb : isReady comp t with
  | false => rfl
  | true =>
      exfalso
      simp only [isReady, depsDone, Bool.and_eq_true, List.all_eq_true] at hb
      have hc := hb.2 d hd
      have : d ∈ comp := by simpa using hc
      exact hmem this

/-- From readiness, every dependency is in the completed set. -/
theorem deps_sub_of_ready (comp : List String) (t : Subtask)
    (h : isReady comp t = true) :
    ∀ d ∈ t.dependencies, d ∈ comp := by
  intro d hd
  simp only [isReady, depsDone, Bool.and_eq_true, List.all_eq_true] at h
  have hc := h.2 d hd
  simpa using hc

/-- Loop lemma L2: completed subtasks persist untouched; a subtask with
a dependency missing from the final completed set is never touched; and
every remote call was issued for a subtask whose dependencies all ended
completed. -/
theorem execLoop_calls_untouched (clients : List String)
    (oracle : String → Except String String) (total : Nat) :
    ∀ fuel (s fin : ExecState) (err : Option String),
      execLoop clients oracle total fuel s = some (fin, err) →
      (∀ t ∈ s.subtasks, t.status = SubtaskStatus.completed → t ∈ fin.subtasks)
      ∧ (∀ t ∈ s.subtasks, (∃ d ∈ t.dependencies, d ∉ fin.completedIds) →
          t ∈ fin.subtasks)
      ∧ (∀ cid ∈ fin.calls, cid ∈ s.calls
          ∨ ∃ t ∈ fin.subtasks, t.id = cid
              ∧ ∀ d ∈ t.dependencies, d ∈ fin.completedIds) := by
  intro fuel
  induction fuel with
  | zero => intro s fin err h; cases h
  | succ fuel ih =>
      intro s fin err hstep
      simp only [execLoop] at hstep
      by_cases hlt : s.completedIds.length < total
      · rw [if_pos hlt] at hstep
        by_cases hre : (s.subtasks.filter (isReady s.completedIds)).isEmpty = true
        · rw [if_pos hre] at hstep
          injection hstep with hp
          injection hp with h1 h2
          rw [← h1]
          exact ⟨fun t ht _ => ht, fun t ht _ => ht, fun cid hc => Or.inl hc⟩
        · rw [if_neg hre] at hstep
          rcases hrs : roundStep clients oracle s with ⟨s1, e1⟩
          rw [hrs] at hstep
          have hsub1 : s1.subtasks = s.subtasks.map
              (roundG clients oracle s.completedIds) := by
            rw [show s1 = (roundStep clients oracle s).1 from by rw [hrs]]
            exact roundStep_subtasks clients oracle s
          have hcomp1 : s1.completedIds
              = roundCompleted (roundRan clients oracle s) s.completedIds := by
            rw [show s1 = (roundStep clients oracle s).1 from by rw [hrs]]
            exact roundStep_completedIds clients oracle s
          have hcalls1 : s1.calls = s.calls
              ++ ((roundRan clients oracle s).filter
                  (fun r => r.called)).map (fun r => r.task.id) := by
            rw [show s1 = (roundStep clients oracle s).1 from by rw [hrs]]
            exact roundStep_calls clients oracle s
          have herr1 : e1 = (roundRan clients oracle s).findSome?
              (fun r => r.err) := by
            rw [show e1 = (roundStep clients oracle s).2 from by rw [hrs]]
            exact roundStep_err clients oracle s
          have hcsub1 : s.completedIds ⊆ s1.completedIds := by
            rw [hcomp1]
            exact roundCompleted_sub _ _
          -- an untouched (non-ready) subtask survives the round
          have hkeep : ∀ t ∈ s.subtasks, isReady s.completedIds t = false →
              t ∈ s1.subtasks := by
            intro t ht hnr
            rw [hsub1]
            exact List.mem_map.mpr ⟨t, ht,
              roundG_not_ready clients oracle s.completedIds t hnr⟩
          -- a ready subtask's run result survives the round
          have hran : ∀ t ∈ s.subtasks, isReady s.completedIds t = true →
              (runOne clients oracle t).task ∈ s1.subtasks := by
            intro t ht hr
            rw [hsub1]
            refine List.mem_map.mpr ⟨t, ht, ?_⟩
            simp [roundG, hr]
          cases e1 with
          | some e =>
              injection hstep with hp
              injection hp with h1 h2
              rw [← h1]
              refine ⟨?_, ?_, ?_⟩
              · intro t ht hc
                exact hkeep t ht (isReady_of_completed _ t hc)
              · intro t ht ⟨d, hd, hdmem⟩
                have hdm : d ∉ s.completedIds := fun hq => hdmem (hcsub1 hq)
                exact hkeep t ht (isReady_false_of_missing_dep _ t d hd hdm)
              · intro cid hc
                rw [hcalls1] at hc
                rcases List.mem_append.mp hc with hc | hc
                · exact Or.inl hc
                · right
                  rw [List.mem_map] at hc
                  obtain ⟨r, hrmem, hrid⟩ := hc
                  have hrr := List.mem_of_mem_filter hrmem
                  obtain ⟨t, ht, hready, hreq⟩ :=
                    mem_roundRan clients oracle s r hrr
                  refine ⟨r.task, ?_, hrid, ?_⟩
                  · rw [hreq]
                    exact hran t ht hready
                  · intro d hd
                    rw [hreq, runOne_deps] at hd
                    exact hcsub1 (deps_sub_of_ready _ t hready d hd)
          | none =>
              obtain ⟨ihP, ihU, ihC⟩ := ih s1 fin err hstep
              have hfin_sub : s1.completedIds ⊆ fin.completedIds :=
                (execLoop_structure clients oracle total fuel s1 fin err hstep).2.2.1
              refine ⟨?_, ?_, ?_⟩
              · intro t ht hc
                exact ihP t (hkeep t ht (isReady_of_completed _ t hc)) hc
              · intro t ht ⟨d, hd, hdmem⟩
                have hdm : d ∉ s.completedIds :=
                  fun hq => hdmem (hfin_sub (hcsub1 hq))
                exact ihU t
                  (hkeep t ht (isReady_false_of_missing_dep _ t d hd hdm))
                  ⟨d, hd, hdmem⟩
              · intro cid hc
                rcases ihC cid hc with hc1 | hc1
                · rw [hcalls1] at hc1
                  rcases List.mem_append.mp hc1 with hc2 | hc2
                  · exact Or.inl hc2
                  · right
                    rw [List.mem_map] at hc2
                    obtain ⟨r, hrmem, hrid⟩ := hc2
                    have hrr := List.mem_of_mem_filter hrmem
                    obtain ⟨t, ht, hready, hreq⟩ :=
                      mem_roundRan clients oracle s r hrr
                    have herrn : r.err = none := by
                      apply findSome?_err_none (roundRan clients oracle s)
                      · exact herr1.symm
                      · exact hrr
                    have hcomp : r.task.status = SubtaskStatus.completed := by
                      rw [hreq]
                      rw [hreq] at herrn
                      exact (runOne_err_none clients oracle t herrn).1
                    refine ⟨r.task, ?_, hrid, ?_⟩
                    · refine ihP r.task ?_ hcomp
                      rw [hreq]
                      exact hran t ht hready
                    · intro d hd
                      rw [hreq, runOne_deps] at hd
                      exact hfin_sub
                        (hcsub1 (deps_sub_of_ready _ t hready d hd))
                · exact Or.inr hc1
      · rw [if_neg hlt] at hstep
        injection hstep with hp
        injection hp with h1 h2
        rw [← h1]
        exact ⟨fun t ht _ => ht, fun t ht _ => ht, fun cid hc => Or.inl hc⟩

theorem runOne_completed_result (clients : List String)
    (oracle : String → Except String String) (t : Subtask)
    (h : (runOne clients oracle t).task.status = SubtaskStatus.completed) :
    (runOne clients oracle t).task.result.isSome = true := by
  cases ha : t.assignedAgent with
  | none => simp [runOne, ha] at h
  | some a =>
      by_cases hc : a ∈ clients
      · cases ho : oracle t.id with
        | ok r => simp [runOne, ha, hc, ho]
        | error e => simp [runOne, ha, hc, ho] at h
      · simp [runOne, ha, hc] at h

theorem mem_roundRan_of_ready (clients : List String)
    (oracle : String → Except String String) (s : ExecState) (t : Subtask)
    (ht : t ∈ s.subtasks) (hready : isReady s.completedIds t = true) :
    runOne clients oracle t ∈ roundRan clients oracle s := by
  rw [roundRan, List.mem_filterMap]
  exact ⟨t, ht, by rw [if_pos hready]⟩

/-- Loop lemma L3: every completed id is witnessed by a completed
subtask, failure statuses only appear together with a reported error,
completed subtasks carry a result, and an error-free exit means the
completion count reached `total`. -/
theorem execLoop_statuses (clients : List String)
    (oracle : String → Except String String) (total : Nat) :
    ∀ fuel (s fin : ExecState) (err : Option String),
      execLoop clients oracle total fuel s = some (fin, err) →
      ((∀ id ∈ s.completedIds, ∃ t ∈ s.subtasks,
            t.id = id ∧ t.status = SubtaskStatus.completed) →
        ∀ id ∈ fin.completedIds, ∃ t ∈ fin.subtasks,
            t.id = id ∧ t.status = SubtaskStatus.completed)
      ∧ ((∀ t ∈ s.subtasks, t.status ≠ SubtaskStatus.failed) → err = none →
          ∀ t ∈ fin.subtasks, t.status ≠ SubtaskStatus.failed)
      ∧ ((∀ t ∈ s.subtasks, t.status = SubtaskStatus.completed →
            t.result.isSome = true) →
          ∀ t ∈ fin.subtasks, t.status = SubtaskStatus.completed →
            t.result.isSome = true)
      ∧ (err = none → total ≤ fin.completedIds.length) := by
  intro fuel
  induction fuel with
  | zero => intro s fin err h; cases h
  | succ fuel ih =>
      intro s fin err hstep
      simp only [execLoop] at hstep
      by_cases hlt : s.completedIds.length < total
      · rw [if_pos hlt] at hstep
        by_cases hre : (s.subtasks.filter (isReady s.completedIds)).isEmpty = true
        · rw [if_pos hre] at hstep
          injection hstep with hp
          injection hp with h1 h2
          rw [← h1]
          refine ⟨fun h => h, fun h _ => h, fun h => h, ?_⟩
          intro he
          rw [← h2] at he
          cases he
        · rw [if_neg hre] at hstep
          rcases hrs : roundStep clients oracle s with ⟨s1, e1⟩
          rw [hrs] at hstep
          have hsub1 : s1.subtasks = s.subtasks.map
              (roundG clients oracle s.completedIds) := by
            rw [show s1 = (roundStep clients oracle s).1 from by rw [hrs]]
            exact roundStep_subtasks clients oracle s
          have hcomp1 : s1.completedIds
              = roundCompleted (roundRan clients oracle s) s.completedIds := by
            rw [show s1 = (roundStep clients oracle s).1 from by rw [hrs]]
            exact roundStep_completedIds clients oracle s
          have herr1 : e1 = (roundRan clients oracle s).findSome?
              (fun r => r.err) := by
            rw [show e1 = (roundStep clients oracle s).2 from by rw [hrs]]
            exact roundStep_err clients oracle s
          have hkeep : ∀ t ∈ s.subtasks, isReady s.completedIds t = false →
              t ∈ s1.subtasks := by
            intro t ht hnr
            rw [hsub1]
            exact List.mem_map.mpr ⟨t, ht,
              roundG_not_ready clients oracle s.completedIds t hnr⟩
          have hran : ∀ t ∈ s.subtasks, isReady s.completedIds t = true →
              (runOne clients oracle t).task ∈ s1.subtasks := by
            intro t ht hr
            rw [hsub1]
            refine List.mem_map.mpr ⟨t, ht, ?_⟩
            simp [roundG, hr]
          -- the completed-id invariant transfers across the round
          have hI1 : (∀ id ∈ s.completedIds, ∃ t ∈ s.subtasks,
                t.id = id ∧ t.status = SubtaskStatus.completed) →
              ∀ id ∈ s1.completedIds, ∃ t ∈ s1.subtasks,
                t.id = id ∧ t.status = SubtaskStatus.completed := by
            intro hI id hid
            rw [hcomp1] at hid
            rcases mem_roundCompleted _ _ id hid with hold | ⟨r, hr, hrerr, hrid⟩
            · obtain ⟨t, ht, htid, htc⟩ := hI id hold
              exact ⟨t, hkeep t ht (isReady_of_completed _ t htc), htid, htc⟩
            · obtain ⟨t, ht, hready, hreq⟩ := mem_roundRan clients oracle s r hr
              rw [hreq] at hrerr hrid
              refine ⟨(runOne clients oracle t).task, hran t ht hready, hrid, ?_⟩
              exact (runOne_err_none clients oracle t hrerr).1
          -- the result invariant transfers across the round
          have hI3 : (∀ t ∈ s.subtasks, t.status = SubtaskStatus.completed →
                t.result.isSome = true) →
              ∀ t ∈ s1.subtasks, t.status = SubtaskStatus.completed →
                t.result.isSome = true := by
            intro hI t ht htc
            rw [hsub1] at ht
            obtain ⟨t0, ht0, hg⟩ := List.mem_map.mp ht
            by_cases hready : isReady s.completedIds t0 = true
            · rw [show roundG clients oracle s.completedIds t0
                  = (runOne clients oracle t0).task from by simp [roundG, hready]]
                at hg
              rw [← hg] at htc ⊢
              exact runOne_completed_result clients oracle t0 htc
            · rw [roundG_not_ready clients oracle s.completedIds t0
                (by revert hready; cases isReady s.completedIds t0 <;> simp)]
                at hg
              rw [← hg] at htc ⊢
              exact hI t0 ht0 htc
          cases e1 with
          | some e =>
              injection hstep with hp
              injection hp with h1 h2
              rw [← h1]
              refine ⟨hI1, ?_, hI3, ?_⟩
              · intro _ he
                rw [← h2] at he
                cases he
              · intro he
                rw [← h2] at he
                cases he
          | none =>
              obtain ⟨ih1, ih2, ih3, ih4⟩ := ih s1 fin err hstep
              -- with an error-free round every executed subtask completed
              have hnf : (∀ t ∈ s.subtasks, t.status ≠ SubtaskStatus.failed) →
                  ∀ t ∈ s1.subtasks, t.status ≠ SubtaskStatus.failed := by
                intro hI t ht
                rw [hsub1] at ht
                obtain ⟨t0, ht0, hg⟩ := List.mem_map.mp ht
                by_cases hready : isReady s.completedIds t0 = true
                · rw [show roundG clients oracle s.completedIds t0
                      = (runOne clients oracle t0).task from by simp [roundG, hready]]
                    at hg
                  have hrerr : (runOne clients oracle t0).err = none := by
                    apply findSome?_err_none (roundRan clients oracle s)
                    · exact herr1.symm
                    · exact mem_roundRan_of_ready clients oracle s t0 ht0 hready
                  rw [← hg]
                  rw [(runOne_err_none clients oracle t0 hrerr).1]
                  intro hq
                  cases hq
                · rw [roundG_not_ready clients oracle s.completedIds t0
                    (by revert hready; cases isReady s.completedIds t0 <;> simp)]
                    at hg
                  rw [← hg]
                  exact hI t0 ht0
              exact ⟨fun hI => ih1 (hI1 hI), fun hI he => ih2 (hnf hI) he,
                fun hI => ih3 (hI3 hI), ih4⟩
      · rw [if_neg hlt] at hstep
        injection hstep with hp
        injection hp with h1 h2
        rw [← h1]
        refine ⟨fun h => h, fun h _ => h, fun h => h, fun _ => Nat.le_of_not_lt hlt⟩

/-- Number of subtasks not yet completed — the loop's termination
measure. -/
def notCompletedCount (s : ExecState) : Nat :=
  s.subtasks.countP (fun t => !(t.status == SubtaskStatus.completed))

theorem countP_lt_of_witness {α : Type} (p q : α → Bool) (l : List α)
    (hle : ∀ a ∈ l, q a = true → p a = true)
    (x : α) (hx : x ∈ l) (hpx : p x = true) (hqx : q x = false) :
    l.countP q < l.countP p := by
  induction l with
  | nil => cases hx
  | cons a l ihl =>
      rw [List.countP_cons, List.countP_cons]
      rcases List.mem_cons.mp hx with hxa | hxl
      · subst hxa
        rw [hpx, hqx]
        simp only [if_true, Bool.false_eq_true, if_false, Nat.add_zero]
        have hmono : l.countP q ≤ l.countP p :=
          List.countP_mono_left (fun a ha => hle a (List.mem_cons_of_mem _ ha))
        omega
      · have hstrict : l.countP q < l.countP p :=
          ihl (fun a ha => hle a (List.mem_cons_of_mem _ ha)) hxl
        have hind : (if q a = true then 1 else 0) ≤ (if p a = true then 1 else 0) := by
          by_cases hqa : q a = true
          · rw [if_pos hqa, if_pos (hle a (List.mem_cons_self a l) hqa)]
          · rw [if_neg hqa]
            omega
        omega

/-- An error-free round with at least one ready subtask strictly
decreases the number of not-completed subtasks. -/
theorem roundStep_measure_lt (clients : List String)
    (oracle : String → Except String String) (s : ExecState)
    (hready : (s.subtasks.filter (isReady s.completedIds)).isEmpty = false)
    (herr : (roundStep clients oracle s).2 = none) :
    notCompletedCount (roundStep clients oracle s).1 < notCompletedCount s := by
  have hne : s.subtasks.filter (isReady s.completedIds) ≠ [] := by
    intro hq
    rw [hq] at hready
    cases hready
  obtain ⟨x, hxf⟩ := List.exists_mem_of_ne_nil _ hne
  have hxmem := List.mem_of_mem_filter hxf
  have hxready : isReady s.completedIds x = true := List.of_mem_filter hxf
  rw [roundStep_err] at herr
  unfold notCompletedCount
  rw [roundStep_subtasks, List.countP_map]
  apply countP_lt_of_witness _ _ _ ?_ x hxmem ?_ ?_
  · intro a ha hq
    by_cases har : isReady s.completedIds a = true
    · exfalso
      have herra : (runOne clients oracle a).err = none :=
        findSome?_err_none _ herr _ (mem_roundRan_of_ready clients oracle s a ha har)
      have hcomp := (runOne_err_none clients oracle a herra).1
      simp only [Function.comp, roundG, if_pos har, hcomp] at hq
      simp at hq
    · simp only [Function.comp,
        roundG_not_ready clients oracle s.completedIds a
          (by revert har; cases isReady s.completedIds a <;> simp)] at hq
      exact hq
  · simp only [isReady, Bool.and_eq_true, decide_eq_true_eq] at hxready
    simp only [Bool.not_eq_true', beq_eq_false_iff_ne]
    exact hxready.1.1
  · have herra : (runOne clients oracle x).err = none :=
      findSome?_err_none _ herr _
        (mem_roundRan_of_ready clients oracle s x hxmem hxready)
    have hcomp := (runOne_err_none clients oracle x herra).1
    simp only [Function.comp, roundG, if_pos hxready, hcomp]
    simp

/-- With fuel exceeding the number of not-completed subtasks, the loop
always returns. -/
theorem execLoop_terminates (clients : List String)
    (oracle : String → Except String String) (total : Nat) :
    ∀ fuel (s : ExecState), notCompletedCount s < fuel →
      (execLoop clients oracle total fuel s).isSome = true := by
  intro fuel
  induction fuel with
  | zero => intro s h; cases h
  | succ fuel ih =>
      intro s hm
      simp only [execLoop]
      by_cases hlt : s.completedIds.length < total
      · rw [if_pos hlt]
        by_cases hre : (s.subtasks.filter (isReady s.completedIds)).isEmpty = true
        · rw [if_pos hre]
          rfl
        · rw [if_neg hre]
          rcases hrs : roundStep clients oracle s with ⟨s1, e1⟩
          cases e1 with
          | some e => rfl
          | none =>
              have hre2 : (s.subtasks.filter (isReady s.completedIds)).isEmpty = false := by
                revert hre
                cases (s.subtasks.filter (isReady s.completedIds)).isEmpty <;> simp
              have hdec : notCompletedCount s1 < notCompletedCount s := by
                have := roundStep_measure_lt clients oracle s hre2 (by rw [hrs])
                rw [hrs] at this
                exact this
              exact ih s1 (Nat.lt_of_lt_of_le hdec (Nat.lt_succ_iff.mp hm))
      · rw [if_neg hlt]
        rfl

/-!
## Claim C6 — loop termination and deadlock detection
-/

/-- C6: the subtask execution loop terminates for every subtask set —
it returns within `subtasks.length + 1` rounds, so the fuel fallback is
unreachable; a round that yields zero ready subtasks while the
completion count is still short raises the deadlock error immediately;
and any execution error (the deadlock included) makes the parent task
`failed`. -/
theorem c6_execution_loop_terminates (clients : List String)
    (oracle : String → Except String String) (subtasks : List Subtask)
    (task : Task) (mid : String) (now : Nat) :
    (∃ r, execLoop clients oracle subtasks.length (subtasks.length + 1)
        { subtasks := subtasks, completedIds := [], results := [], calls := [] }
        = some r
      ∧ executeSubtasks clients oracle subtasks = r)
    ∧ (∀ (total fuel : Nat) (s : ExecState), s.completedIds.length < total →
        (s.subtasks.filter (isReady s.completedIds)).isEmpty = true →
        execLoop clients oracle total (fuel + 1) s
          = some (s, some "Deadlock detected in task dependencies"))
    ∧ (∀ e, (executeSubtasks clients oracle subtasks).2 = some e →
        (coordinatorRun task subtasks clients oracle mid now).1.status.state
          = TaskState.failed) := by
  have hterm : (execLoop clients oracle subtasks.length (subtasks.length + 1)
      { subtasks := subtasks, completedIds := [], results := [],
        calls := [] }).isSome = true := by
    apply execLoop_terminates
    have hle : notCompletedCount
        { subtasks := subtasks, completedIds := [], results := [],
          calls := ([] : List String) } ≤ subtasks.length :=
      List.countP_le_length _
    omega
  obtain ⟨r, hr⟩ := Option.isSome_iff_exists.mp hterm
  refine ⟨⟨r, hr, ?_⟩, ?_, ?_⟩
  · simp only [executeSubtasks, hr]
  · intro total fuel s hlt hre
    simp only [execLoop]
    rw [if_pos hlt, if_pos hre]
  · intro e he
    rcases hex : executeSubtasks clients oracle subtasks with ⟨fin, ferr⟩
    rw [hex] at he
    simp only at he
    simp only [coordinatorRun, hex, he]

/-- The cyclic pair of subtasks used as the C6 witness. -/
def cycSubtaskA : Subtask :=
  { id := "sA", description := "first of a cycle"
    requiredCapabilities := ["general"], dependencies := ["sB"]
    assignedAgent := some "research-agent"
    status := SubtaskStatus.assigned, result := none }

def cycSubtaskB : Subtask :=
  { id := "sB", description := "second of a cycle"
    requiredCapabilities := ["general"], dependencies := ["sA"]
    assignedAgent := some "research-agent"
    status := SubtaskStatus.assigned, result := none }

def plainTask : Task :=
  { id := "p1", contextId := "c1"
    status := { state := TaskState.working, message := none }
    messages := [], createdAt := 0, updatedAt := none
    completedAt := none, error := none, metadata := [] }

/-- Witness: a two-subtask dependency cycle — round one is immediately
deadlocked and the parent task fails. -/
theorem c6_execution_loop_terminates_witness :
    (∃ r, execLoop ["research-agent"] (fun _ => Except.ok "ok")
        ([cycSubtaskA, cycSubtaskB].length) ([cycSubtaskA, cycSubtaskB].length + 1)
        { subtasks := [cycSubtaskA, cycSubtaskB], completedIds := [],
          results := [], calls := [] }
        = some r
      ∧ executeSubtasks ["research-agent"] (fun _ => Except.ok "ok")
          [cycSubtaskA, cycSubtaskB] = r)
    ∧ execLoop ["research-agent"] (fun _ => Except.ok "ok")
        ([cycSubtaskA, cycSubtaskB].length) (0 + 1)
        { subtasks := [cycSubtaskA, cycSubtaskB], completedIds := [],
          results := [], calls := [] }
        = some ({ subtasks := [cycSubtaskA, cycSubtaskB], completedIds := [],
                  results := [], calls := [] },
                some "Deadlock detected in task dependencies")
    ∧ (coordinatorRun plainTask [cycSubtaskA, cycSubtaskB] ["research-agent"]
        (fun _ => Except.ok "ok") "m1" 5).1.status.state = TaskState.failed := by
  have h := c6_execution_loop_terminates ["research-agent"]
    (fun _ => Except.ok "ok") [cycSubtaskA, cycSubtaskB] plainTask "m1" 5
  refine ⟨h.1, ?_, ?_⟩
  · exact h.2.1 ([cycSubtaskA, cycSubtaskB].length) 0
      { subtasks := [cycSubtaskA, cycSubtaskB], completedIds := [],
        results := [], calls := [] }
      (by decide) (by rfl)
  · exact h.2.2 "Deadlock detected in task dependencies" (by rfl)

/-!
## Claim C5 — failure containment in the subtask DAG
-/

/-- Subtask A of the counterexample: ready in round one, remote run
fails. -/
def failSubtaskA : Subtask :=
  { id := "A", description := "the failing branch"
    requiredCapabilities := ["research"], dependencies := []
    assignedAgent := some "research-agent"
    status := SubtaskStatus.assigned, result := none }

/-- Subtask C of the counterexample: depends on A. -/
def depSubtaskC : Subtask :=
  { id := "C", description := "depends on the failing branch"
    requiredCapabilities := ["code_generation"], dependencies := ["A"]
    assignedAgent := some "code-agent"
    status := SubtaskStatus.assigned, result := none }

/-- The remote oracle of the counterexample: A fails, everything else
succeeds. -/
def failOracleA : String → Except String String :=
  fun id => if id = "A" then Except.error "boom" else Except.ok "fine"

/-- C5 counterexample: when A fails, its dependent C never reaches
status `failed` — the thrown error aborts `executeSubtasks`, so C keeps
its pre-execution status `assigned`.  (No remote call is issued for C,
and the execution reports the error, as the claim also says.) -/
theorem c5_dependent_stays_assigned :
    (executeSubtasks ["research-agent", "code-agent"] failOracleA
        [failSubtaskA, depSubtaskC]).1.subtasks.map (fun t => t.status)
      = [SubtaskStatus.failed, SubtaskStatus.assigned]
    ∧ (executeSubtasks ["research-agent", "code-agent"] failOracleA
        [failSubtaskA, depSubtaskC]).1.calls = ["A"]
    ∧ (executeSubtasks ["research-agent", "code-agent"] failOracleA
        [failSubtaskA, depSubtaskC]).2 = some "boom"
    ∧ SubtaskStatus.assigned ≠ SubtaskStatus.failed := by
  exact ⟨rfl, rfl, rfl, by decide⟩

/-- C5 amended: when a subtask fails, the error aborts the execution
loop; a subtask with a dependency that never completed is never issued
a remote call and keeps its entire pre-execution record (status
included — it is NOT marked `failed`); subtasks that completed keep
their results; any failed subtask forces an execution error and the
parent task ends `failed` with that error recorded; the parent ends
`completed` only when every subtask completed. -/
theorem c5_failure_containment (clients : List String)
    (oracle : String → Except String String) (subtasks : List Subtask)
    (task : Task) (mid : String) (now : Nat)
    (hids : (subtasks.map (fun t => t.id)).Nodup)
    (hinit : ∀ t ∈ subtasks, t.status ≠ SubtaskStatus.failed
        ∧ t.status ≠ SubtaskStatus.completed) :
    (∀ t ∈ subtasks,
      (∃ d ∈ t.dependencies,
          d ∉ (executeSubtasks clients oracle subtasks).1.completedIds) →
      t ∈ (executeSubtasks clients oracle subtasks).1.subtasks
      ∧ t.id ∉ (executeSubtasks clients oracle subtasks).1.calls)
    ∧ (∀ t ∈ (executeSubtasks clients oracle subtasks).1.subtasks,
        t.status = SubtaskStatus.completed → t.result.isSome = true)
    ∧ ((∃ t ∈ (executeSubtasks clients oracle subtasks).1.subtasks,
          t.status = SubtaskStatus.failed) →
        ∃ e, (executeSubtasks clients oracle subtasks).2 = some e)
    ∧ (∀ e, (executeSubtasks clients oracle subtasks).2 = some e →
        (coordinatorRun task subtasks clients oracle mid now).1.status.state
          = TaskState.failed
        ∧ (coordinatorRun task subtasks clients oracle mid now).1.error = some e)
    ∧ ((executeSubtasks clients oracle subtasks).2 = none →
        (coordinatorRun task subtasks clients oracle mid now).1.status.state
          = TaskState.completed
        ∧ ∀ t ∈ (executeSubtasks clients oracle subtasks).1.subtasks,
            t.status = SubtaskStatus.completed) := by
  have hterm : (execLoop clients oracle subtasks.length (subtasks.length + 1)
      { subtasks := subtasks, completedIds := [], results := [],
        calls := [] }).isSome = true := by
    apply execLoop_terminates
    have hle : notCompletedCount
        { subtasks := subtasks, completedIds := [], results := [],
          calls := ([] : List String) } ≤ subtasks.length :=
      List.countP_le_length _
    omega
  obtain ⟨⟨fin, ferr⟩, hloop⟩ := Option.isSome_iff_exists.mp hterm
  have hexec : executeSubtasks clients oracle subtasks = (fin, ferr) := by
    simp only [executeSubtasks, hloop]
  obtain ⟨hlen, hidseq, hcsub, hcnodup⟩ :=
    execLoop_structure clients oracle subtasks.length (subtasks.length + 1)
      _ fin ferr hloop
  obtain ⟨hpersist, huntouched, hcalls⟩ :=
    execLoop_calls_untouched clients oracle subtasks.length (subtasks.length + 1)
      _ fin ferr hloop
  obtain ⟨hI1, hnofail, hres, hcount⟩ :=
    execLoop_statuses clients oracle subtasks.length (subtasks.length + 1)
      _ fin ferr hloop
  have hnodupF : (fin.subtasks.map (fun t => t.id)).Nodup := by
    rw [hidseq]
    exact hids
  have hinjF := List.inj_on_of_nodup_map hnodupF
  rw [hexec]
  refine ⟨?_, ?_, ?_, ?_, ?_⟩
  · -- untouched, and no remote call for it
    intro t ht ⟨d, hd, hdm⟩
    have htin : t ∈ fin.subtasks := huntouched t ht ⟨d, hd, hdm⟩
    refine ⟨htin, ?_⟩
    intro hcall
    rcases hcalls t.id hcall with hc0 | ⟨t2, ht2, ht2id, ht2deps⟩
    · cases hc0
    · have : t2 = t := hinjF ht2 htin ht2id
      rw [this] at ht2deps
      exact hdm (ht2deps d hd)
  · -- completed subtasks carry results
    apply hres
    intro t ht hc
    exact absurd hc (hinit t ht).2
  · -- a failed subtask means the execution reported an error
    intro ⟨t, ht, htf⟩
    cases herr : ferr with
    | some e => exact ⟨e, rfl⟩
    | none =>
        exfalso
        have := hnofail (fun t2 ht2 => (hinit t2 ht2).1) herr t ht
        exact this htf
  · -- an execution error fails the parent, recording the error text
    intro e he
    simp only at he
    constructor <;> simp only [coordinatorRun, hexec, he]
  · -- an error-free run completes the parent, and then every subtask
    -- completed (counting argument over distinct ids)
    intro he
    simp only at he
    constructor
    · simp only [coordinatorRun, hexec, he]
    · have hcnt : subtasks.length ≤ fin.completedIds.length := hcount he
      have hnodupC : fin.completedIds.Nodup := hcnodup List.nodup_nil
      have hwit : ∀ id ∈ fin.completedIds, ∃ t ∈ fin.subtasks,
          t.id = id ∧ t.status = SubtaskStatus.completed := by
        apply hI1
        intro id hid
        cases hid
      have hsubF : ∀ id ∈ fin.completedIds,
          id ∈ fin.subtasks.map (fun t => t.id) := by
        intro id hid
        obtain ⟨t, ht, htid, _⟩ := hwit id hid
        rw [← htid]
        exact List.mem_map_of_mem _ ht
      have hfc : fin.completedIds.toFinset
          ⊆ (fin.subtasks.map (fun t => t.id)).toFinset := by
        intro x hx
        rw [List.mem_toFinset] at hx ⊢
        exact hsubF x hx
      have hcard1 : fin.completedIds.toFinset.card = fin.completedIds.length :=
        List.toFinset_card_of_nodup hnodupC
      have hcard2 : (fin.subtasks.map (fun t => t.id)).toFinset.card
          = subtasks.length := by
        rw [List.toFinset_card_of_nodup hnodupF, List.length_map, hlen]
      have hfeq : fin.completedIds.toFinset
          = (fin.subtasks.map (fun t => t.id)).toFinset := by
        apply Finset.eq_of_subset_of_card_le hfc
        rw [hcard1, hcard2]
        exact hcnt
      intro t ht
      have hidin : t.id ∈ fin.completedIds := by
        rw [← List.mem_toFinset, hfeq, List.mem_toFinset]
        exact List.mem_map_of_mem _ ht
      obtain ⟨t2, ht2, ht2id, ht2c⟩ := hwit t.id hidin
      have : t2 = t := hinjF ht2 ht ht2id
      rw [← this]
      exact ht2c

/-- Witness: one subtask with a satisfied capability and a succeeding
remote agent — the run completes, every hypothesis holds. -/
theorem c5_failure_containment_witness :
    ((∀ t ∈ [failSubtaskA],
      (∃ d ∈ t.dependencies,
          d ∉ (executeSubtasks ["research-agent"] (fun _ => Except.ok "ok")
            [failSubtaskA]).1.completedIds) →
      t ∈ (executeSubtasks ["research-agent"] (fun _ => Except.ok "ok")
            [failSubtaskA]).1.subtasks
      ∧ t.id ∉ (executeSubtasks ["research-agent"] (fun _ => Except.ok "ok")
            [failSubtaskA]).1.calls)
    ∧ (∀ t ∈ (executeSubtasks ["research-agent"] (fun _ => Except.ok "ok")
          [failSubtaskA]).1.subtasks,
        t.status = SubtaskStatus.completed → t.result.isSome = true)
    ∧ ((∃ t ∈ (executeSubtasks ["research-agent"] (fun _ => Except.ok "ok")
            [failSubtaskA]).1.subtasks,
          t.status = SubtaskStatus.failed) →
        ∃ e, (executeSubtasks ["research-agent"] (fun _ => Except.ok "ok")
            [failSubtaskA]).2 = some e)
    ∧ (∀ e, (executeSubtasks ["research-agent"] (fun _ => Except.ok "ok")
          [failSubtaskA]).2 = some e →
        (coordinatorRun plainTask [failSubtaskA] ["research-agent"]
          (fun _ => Except.ok "ok") "m1" 5).1.status.state = TaskState.failed
        ∧ (coordinatorRun plainTask [failSubtaskA] ["research-agent"]
          (fun _ => Except.ok "ok") "m1" 5).1.error = some e)
    ∧ ((executeSubtasks ["research-agent"] (fun _ => Except.ok "ok")
          [failSubtaskA]).2 = none →
        (coordinatorRun plainTask [failSubtaskA] ["research-agent"]
          (fun _ => Except.ok "ok") "m1" 5).1.status.state = TaskState.completed
        ∧ ∀ t ∈ (executeSubtasks ["research-agent"] (fun _ => Except.ok "ok")
            [failSubtaskA]).1.subtasks,
            t.status = SubtaskStatus.completed)) :=
  c5_failure_containment ["research-agent"] (fun _ => Except.ok "ok")
    [failSubtaskA] plainTask "m1" 5 (by decide)
    (by intro t ht; rw [List.mem_singleton.mp ht]; exact ⟨by decide, by decide⟩)

/-!
## Claim C1 — the task state machine
-/

/-- C1 counterexample: a reachable operation sequence that leaves a
terminal state.  `message/send` creates a task, the provider completes
it (`completed`, terminal), and a `tasks/update` carrying
`updates.status = {state: 'working'}` overwrites the terminal state with
`working` — `updateTask` applies any supplied status object
unconditionally. -/
theorem c1_update_leaves_terminal_state :
    (TaskStore.get (applyOps { store := [], pending := [] }
        [AgentOp.opCreate sampleSendParams "t1" "c1" "m1" 0,
         AgentOp.opResume "t1" (Except.ok "done") "m2" 1]).store "t1").map
      (fun t => t.status.state) = some TaskState.completed
    ∧ (TaskStore.get (applyOps { store := [], pending := [] }
        [AgentOp.opCreate sampleSendParams "t1" "c1" "m1" 0,
         AgentOp.opResume "t1" (Except.ok "done") "m2" 1,
         AgentOp.opUpdate "t1"
           { message := none
             status := some { state := TaskState.working, message := none }
             metadata := none } "m3" 2]).store "t1").map
      (fun t => t.status.state) = some TaskState.working
    ∧ TaskState.working ≠ TaskState.completed := by
  exact ⟨rfl, rfl, by decide⟩

theorem contains_cons_ne (p : List String) (tid id : String) (h : tid ≠ id) :
    (tid :: p).contains id = p.contains id := by
  simp [List.contains_cons, Ne.symm h]

theorem contains_filter_ne (p : List String) (j id : String) (h : id ≠ j) :
    (p.filter (fun x => !(x == j))).contains id = p.contains id := by
  induction p with
  | nil => rfl
  | cons a p ih =>
      by_cases ha : a = j
      · subst ha
        simp only [List.filter_cons, beq_self_eq_true, Bool.not_true,
          Bool.false_eq_true, if_false]
        rw [ih, contains_cons_ne p a id (Ne.symm h)]
      · have : ((a == j) : Bool) = false := by
          simp [ha]
        simp only [List.filter_cons, this, Bool.not_false, if_true]
        by_cases hia : id = a
        · subst hia
          simp [List.contains_cons]
        · rw [contains_cons_ne _ _ _ (Ne.symm hia),
            contains_cons_ne _ _ _ (Ne.symm hia)]
          exact ih

theorem contains_filter_self (p : List String) (id : String) :
    (p.filter (fun x => !(x == id))).contains id = false := by
  induction p with
  | nil => rfl
  | cons a p ih =>
      by_cases ha : a = id
      · subst ha
        simpa using ih
      · have : ((a == id) : Bool) = false := by
          simp [ha]
        simp only [List.filter_cons, this, Bool.not_false, if_true]
        rw [contains_cons_ne _ _ _ ha]
        exact ih

/-- One safe operation preserves `pendingOkB` and never changes the
state of a task already `completed` or `failed`. -/
theorem c1_step (s : AgentState) (op : AgentOp) (id : String)
    (hsafe : opSafeB id op = true) (hinv : pendingOkB s id = true) :
    pendingOkB (applyOp s op) id = true
    ∧ (∀ t, TaskStore.get s.store id = some t →
        (t.status.state = TaskState.completed ∨ t.status.state = TaskState.failed) →
        ∃ t', TaskStore.get (applyOp s op).store id = some t'
          ∧ t'.status.state = t.status.state) := by
  cases op with
  | opCreate p tid cid mid now =>
      have htid : tid ≠ id := by
        simp only [opSafeB, Bool.not_eq_true'] at hsafe
        exact fun hq => by rw [hq] at hsafe; simp at hsafe
      have hstore : TaskStore.get (applyOp s (AgentOp.opCreate p tid cid mid now)).store id
          = TaskStore.get s.store id := by
        simp only [applyOp, createTask]
        rw [TaskStore.get_set_ne _ _ _ _ (Ne.symm htid),
          TaskStore.get_set_ne _ _ _ _ (Ne.symm htid)]
      have hpend : (applyOp s (AgentOp.opCreate p tid cid mid now)).pending.contains id
          = s.pending.contains id := by
        simp only [applyOp]
        cases (createTask s.store p tid cid mid now).pendingPrompt with
        | none => rfl
        | some _ => exact contains_cons_ne _ _ _ htid
      constructor
      · simp only [pendingOkB, hstore, hpend]
        exact hinv
      · intro t hget hterm
        exact ⟨t, by rw [hstore, hget], rfl⟩
  | opUpdate tid upd mid now =>
      have hpend : (applyOp s (AgentOp.opUpdate tid upd mid now)).pending
          = s.pending := by
        simp only [applyOp]
        cases updateTask s.store tid upd mid now <;> rfl
      by_cases htid : tid = id
      · subst htid
        have hst : upd.status = none := by
          simp only [opSafeB, beq_self_eq_true, Bool.not_true, Bool.false_or,
            Option.isNone_iff_eq_none] at hsafe
          exact hsafe
        cases hget0 : TaskStore.get s.store tid with
        | none =>
            have hs : applyOp s (AgentOp.opUpdate tid upd mid now) = s := by
              simp [applyOp, updateTask, hget0]
            rw [hs]
            exact ⟨hinv, fun t hget hterm => Option.noConfusion hget⟩
        | some t0 =>
            have hex : ∃ t4,
                TaskStore.get (applyOp s (AgentOp.opUpdate tid upd mid now)).store tid
                  = some t4 ∧ t4.status.state = t0.status.state := by
              cases hm : upd.message with
              | none =>
                  cases hmd : upd.metadata with
                  | none =>
                      refine ⟨{ t0 with updatedAt := some now }, ?_, rfl⟩
                      simp [applyOp, updateTask, hget0, hst, hm, hmd,
                        TaskStore.get_set_self]
                  | some md =>
                      refine ⟨{ t0 with metadata := mergeMetadata t0.metadata md,
                                        updatedAt := some now }, ?_, rfl⟩
                      simp [applyOp, updateTask, hget0, hst, hm, hmd,
                        TaskStore.get_set_self]
              | some m =>
                  cases hmd : upd.metadata with
                  | none =>
                      refine ⟨{ t0 with
                          messages := t0.messages ++ [ensureMessageId m mid]
                          updatedAt := some now }, ?_, rfl⟩
                      simp [applyOp, updateTask, hget0, hst, hm, hmd,
                        TaskStore.get_set_self]
                  | some md =>
                      refine ⟨{ t0 with
                          messages := t0.messages ++ [ensureMessageId m mid]
                          metadata := mergeMetadata t0.metadata md
                          updatedAt := some now }, ?_, rfl⟩
                      simp [applyOp, updateTask, hget0, hst, hm, hmd,
                        TaskStore.get_set_self]
            obtain ⟨t4, hget4, hstat4⟩ := hex
            constructor
            · simp only [pendingOkB, hget4, hpend, hstat4]
              simp only [pendingOkB, hget0] at hinv
              exact hinv
            · intro t hget hterm
              cases hget
              exact ⟨t4, hget4, hstat4⟩
      · have hstore : TaskStore.get (applyOp s (AgentOp.opUpdate tid upd mid now)).store id
            = TaskStore.get s.store id := by
          simp only [applyOp]
          cases hq : updateTask s.store tid upd mid now with
          | error e => rfl
          | ok r =>
              obtain ⟨st1, t1⟩ := r
              cases hget0 : TaskStore.get s.store tid with
              | none => simp [updateTask, hget0] at hq
              | some t0 =>
                  have hst1 : st1 = TaskStore.set s.store tid t1 := by
                    simp only [updateTask, hget0] at hq
                    cases upd.message <;> cases upd.status <;> cases upd.metadata <;>
                      · injection hq with h1
                        injection h1 with ha hb
                        rw [← ha, ← hb]
                  rw [hst1]
                  exact TaskStore.get_set_ne _ _ _ _ (Ne.symm htid)
        constructor
        · simp only [pendingOkB, hstore, hpend]
          exact hinv
        · intro t hget hterm
          exact ⟨t, by rw [hstore, hget], rfl⟩
  | opCancel tid now =>
      by_cases htid : tid = id
      · subst htid
        cases hget0 : TaskStore.get s.store tid with
        | none =>
            have hs : applyOp s (AgentOp.opCancel tid now) = s := by
              simp [applyOp, cancelTask, hget0]
            rw [hs]
            exact ⟨hinv, fun t hget hterm => Option.noConfusion hget⟩
        | some t0 =>
            by_cases hterm0 : t0.status.state = TaskState.completed ∨
                t0.status.state = TaskState.failed
            · have hs : applyOp s (AgentOp.opCancel tid now) = s := by
                simp [applyOp, cancelTask, hget0, hterm0]
              rw [hs]
              refine ⟨hinv, fun t hget hterm => ?_⟩
              cases hget
              exact ⟨t0, hget0, rfl⟩
            · have heq : applyOp s (AgentOp.opCancel tid now)
                  = { s with store := (TaskStore.set s.store tid
                      { t0 with status := { state := TaskState.cancelled,
                                            message := some "Task cancelled by client request" }
                                updatedAt := some now }) } := by
                simp [applyOp, cancelTask, hget0, hterm0]
              rw [heq]
              constructor
              · simp only [pendingOkB, TaskStore.get_set_self]
                simp
              · intro t hget hterm
                cases hget
                exact absurd hterm hterm0
      · have hstore : TaskStore.get (applyOp s (AgentOp.opCancel tid now)).store id
            = TaskStore.get s.store id := by
          simp only [applyOp]
          cases hq : cancelTask s.store tid now with
          | error e => rfl
          | ok r =>
              obtain ⟨st1, t1⟩ := r
              cases hget0 : TaskStore.get s.store tid with
              | none => simp [cancelTask, hget0] at hq
              | some t0 =>
                  by_cases hterm0 : t0.status.state = TaskState.completed ∨
                      t0.status.state = TaskState.failed
                  · simp [cancelTask, hget0, hterm0] at hq
                  · have hst1 : st1 = TaskStore.set s.store tid
                        { t0 with status := { state := TaskState.cancelled,
                                              message := some "Task cancelled by client request" }
                                  updatedAt := some now } := by
                      simp only [cancelTask, hget0, if_neg hterm0] at hq
                      injection hq with hq1
                      injection hq1 with ha hb
                      exact ha.symm
                    rw [hst1]
                    exact TaskStore.get_set_ne _ _ _ _ (Ne.symm htid)
        have hpend : (applyOp s (AgentOp.opCancel tid now)).pending = s.pending := by
          simp only [applyOp]
          cases cancelTask s.store tid now <;> rfl
        constructor
        · simp only [pendingOkB, hstore, hpend]
          exact hinv
        · intro t hget hterm
          exact ⟨t, by rw [hstore, hget], rfl⟩
  | opResume tid outcome mid now =>
      by_cases hc : s.pending.contains tid = true
      · by_cases htid : tid = id
        · subst htid
          cases hget0 : TaskStore.get s.store tid with
          | none =>
              have heq : applyOp s (AgentOp.opResume tid outcome mid now)
                  = { s with pending := s.pending.filter (fun x => !(x == tid)) } := by
                simp only [applyOp, hc, hget0, eq_self_iff_true, if_true]
              rw [heq]
              constructor
              · simp only [pendingOkB, hget0]
              · intro t hget hterm
                cases hget
          | some t0 =>
              by_cases hterm0 : t0.status.state = TaskState.completed ∨
                  t0.status.state = TaskState.failed
              · -- excluded by the invariant: a terminal task has no
                -- in-flight provider call
                exfalso
                simp only [pendingOkB, hget0] at hinv
                rw [if_pos hterm0, Bool.not_eq_true'] at hinv
                rw [hinv] at hc
                cases hc
              · have heq : applyOp s (AgentOp.opResume tid outcome mid now)
                    = { store := (TaskStore.set s.store tid
                          (processTaskResume t0 outcome mid now))
                        pending := s.pending.filter (fun x => !(x == tid)) } := by
                  simp only [applyOp, hc, hget0, eq_self_iff_true, if_true]
                rw [heq]
                constructor
                · simp only [pendingOkB, TaskStore.get_set_self,
                    contains_filter_self]
                  cases outcome <;> simp [processTaskResume]
                · intro t hget hterm
                  cases hget
                  exact absurd hterm hterm0
        · have hpendc : ((s.pending.filter (fun x => !(x == tid))).contains id)
              = s.pending.contains id :=
            contains_filter_ne s.pending tid id (Ne.symm htid)
          cases hget0 : TaskStore.get s.store tid with
          | none =>
              have heq : applyOp s (AgentOp.opResume tid outcome mid now)
                  = { s with pending := s.pending.filter (fun x => !(x == tid)) } := by
                simp only [applyOp, hc, hget0, eq_self_iff_true, if_true]
              rw [heq]
              constructor
              · simp only [pendingOkB, hpendc]
                exact hinv
              · intro t hget hterm
                exact ⟨t, hget, rfl⟩
          | some t0 =>
              have heq : applyOp s (AgentOp.opResume tid outcome mid now)
                  = { store := (TaskStore.set s.store tid
                        (processTaskResume t0 outcome mid now))
                      pending := s.pending.filter (fun x => !(x == tid)) } := by
                simp only [applyOp, hc, hget0, eq_self_iff_true, if_true]
              rw [heq]
              have hstore : TaskStore.get
                  (TaskStore.set s.store tid (processTaskResume t0 outcome mid now)) id
                  = TaskStore.get s.store id :=
                TaskStore.get_set_ne _ _ _ _ (Ne.symm htid)
              constructor
              · simp only [pendingOkB, hstore, hpendc]
                exact hinv
              · intro t hget hterm
                exact ⟨t, by rw [hstore, hget], rfl⟩
      · have hs : applyOp s (AgentOp.opResume tid outcome mid now) = s := by
          simp only [applyOp]
          rw [if_neg hc]
        rw [hs]
        exact ⟨hinv, fun t hget hterm => ⟨t, hget, rfl⟩⟩

/-- C1 amended: along every operation sequence that carries no
`tasks/update` with an `updates.status` field (and does not re-create
the same task id), a task that has reached `completed` or `failed` keeps
that state forever — `createTask`, message/metadata-only updates,
`tasks/cancel` (which errors on those states) and provider completions
(which only fire for tasks with an in-flight call, never terminal ones)
all preserve it.  The exceptions the code allows are: `tasks/update`
with `updates.status` overwrites any state with any supplied value (the
counterexample), a provider completion landing after a cancellation
overwrites `cancelled`, and `tasks/cancel` moves the terminal state
`rejected` to `cancelled` — so of the four terminal states only
`completed` and `failed` are unconditionally stable under
status-update-free sequences. -/
theorem c1_terminal_preserved_without_status_updates (ops : List AgentOp)
    (s : AgentState) (id : String) (t : Task)
    (hsafe : ops.all (opSafeB id) = true)
    (hinv : pendingOkB s id = true)
    (hget : TaskStore.get s.store id = some t)
    (hterm : t.status.state = TaskState.completed ∨
             t.status.state = TaskState.failed) :
    ∃ t', TaskStore.get (applyOps s ops).store id = some t'
      ∧ t'.status.state = t.status.state := by
  induction ops generalizing s t with
  | nil => exact ⟨t, hget, rfl⟩
  | cons op rest ih =>
      rw [List.all_cons, Bool.and_eq_true] at hsafe
      obtain ⟨hstep_inv, hstep_pres⟩ := c1_step s op id hsafe.1 hinv
      obtain ⟨t1, hget1, hstate1⟩ := hstep_pres t hget hterm
      have hterm1 : t1.status.state = TaskState.completed ∨
          t1.status.state = TaskState.failed := by
        rw [hstate1]
        exact hterm
      obtain ⟨t2, hget2, hstate2⟩ := ih (applyOp s op) t1 hsafe.2 hstep_inv hget1 hterm1
      exact ⟨t2, hget2, by rw [hstate2, hstate1]⟩

/-- Witness: a store holding one completed task, with a cancel and a
metadata-only update applied. -/
theorem c1_terminal_preserved_witness :
    ∃ t', TaskStore.get (applyOps
        { store := [("t1", { id := "t1", contextId := "c1"
                             status := { state := TaskState.completed,
                                         message := some "Task completed successfully" }
                             messages := [], createdAt := 0, updatedAt := none
                             completedAt := some 1, error := none, metadata := [] })]
          pending := [] }
        [AgentOp.opCancel "t1" 2,
         AgentOp.opUpdate "t1"
           { message := none, status := none, metadata := some [("k", "v")] } "m9" 3]).store
        "t1" = some t'
      ∧ t'.status.state
          = ({ id := "t1", contextId := "c1"
               status := { state := TaskState.completed,
                           message := some "Task completed successfully" }
               messages := [], createdAt := 0, updatedAt := none
               completedAt := some 1, error := none,
               metadata := [] } : Task).status.state :=
  c1_terminal_preserved_without_status_updates
    [AgentOp.opCancel "t1" 2,
     AgentOp.opUpdate "t1"
       { message := none, status := none, metadata := some [("k", "v")] } "m9" 3]
    { store := [("t1", { id := "t1", contextId := "c1"
                         status := { state := TaskState.completed,
                                     message := some "Task completed successfully" }
                         messages := [], createdAt := 0, updatedAt := none
                         completedAt := some 1, error := none, metadata := [] })]
      pending := [] }
    "t1" _ (by decide) (by decide) rfl (Or.inl rfl)

end A2A
